import Mathlib

/-!
Verification of the Data-Agent backend: a shallow embedding of the MRRpV
query compiler (backend/src/queries/mrrpv.js), the view-state reconciliation
safeguards (view-lock.js, include-restore.js) and the static source registry,
together with proofs of the specified properties.

JavaScript numbers are modelled as exact rationals; JS Math.round (round half
toward positive infinity) is modelled by jsRound.  Nullable JS values are
modelled as Option.
-/

namespace DataAgent

/-- JS Math.round: rounds to the nearest integer, halves toward +infinity. -/
def jsRound (q : ℚ) : ℤ := ⌊q + 1/2⌋

/-- Math.round(x * 100) / 100 — round to 2 decimal places as done throughout mrrpv.js. -/
def round2 (q : ℚ) : ℚ := (jsRound (q * 100) : ℚ) / 100

/-- JS coercion pattern Number(x) || 0 applied to a nullable numeric field. -/
def numOr0 (o : Option ℚ) : ℚ := o.getD 0

/-- Leading- and trailing-whitespace trim on the character list (JS trim). -/
def trimChars (cs : List Char) : List Char :=
  ((cs.dropWhile Char.isWhitespace).reverse.dropWhile Char.isWhitespace).reverse

/-- s.trim, by structural list recursion so terms evaluate in the kernel. -/
def jsTrim (s : String) : String := String.mk (trimChars s.data)

/-- s.toLowerCase, by structural list recursion. -/
def lowerStr (s : String) : String := String.mk (s.data.map Char.toLower)

/-- s.split on a comma, by structural recursion; splitting the empty string
gives one empty part, as in JS. -/
def splitComma : List Char → List (List Char)
  | [] => [[]]
  | c :: rest =>
      match splitComma rest with
      | cur :: parts => if c = ',' then [] :: cur :: parts else (c :: cur) :: parts
      | [] => [[]]

/-! ### Source registry (SOURCE_CONFIG in mrrpv.js) -/

/-- Per-source config: table, time column, revenue/ARR column, vehicle count column,
annualization flag, ACV column, account id column, and allowed group-by dimensions
with their SQL column mapping.  Mirrors SOURCE_CONFIG in mrrpv.js. -/
structure SourceConfig where
  table : String
  timeCol : String
  arrCol : Option String
  valueCol : Option String
  countCol : String
  annual : Bool
  acvCol : Option String
  accountIdCol : String
  groupBySqlColumn : List (String × String)
  allowedGroupBy : List String
deriving Repr, DecidableEq

def fleetConfig : SourceConfig :=
  { table := "mrrpv_fleet"
    timeCol := "close_quarter"
    arrCol := some "fleet_arr"
    valueCol := none
    countCol := "vehicle_count"
    annual := true
    acvCol := some "fleet_arr"
    accountIdCol := "account_id"
    groupBySqlColumn := [("segment", "segment"), ("geo", "geo")]
    allowedGroupBy := ["segment", "geo"] }

def firstPurchaseConfig : SourceConfig :=
  { table := "mrrpv_first_purchase"
    timeCol := "close_quarter"
    arrCol := none
    valueCol := some "mrrpv"
    countCol := "vehicle_count"
    annual := false
    acvCol := some "fleet_acv"
    accountIdCol := "account_id"
    groupBySqlColumn :=
      [("industry", "industry"), ("segment", "segment"), ("geo", "geo"),
       ("geo_segment", "geo,segment")]
    allowedGroupBy := ["industry", "segment", "geo", "geo_segment"] }

def upsellConfig : SourceConfig :=
  { table := "mrrpv_upsell"
    timeCol := "close_quarter"
    arrCol := some "upsell_fleet_arr"
    valueCol := none
    countCol := "upsell_vehicle_count"
    annual := true
    acvCol := some "upsell_fleet_arr"
    accountIdCol := "account_id"
    groupBySqlColumn :=
      [("industry", "industry"), ("segment", "segment"), ("geo", "geo"),
       ("geo_segment", "geo,segment")]
    allowedGroupBy := ["industry", "segment", "geo", "geo_segment"] }

/-- SOURCE_CONFIG: ordered key/value list of the three data sources. -/
def SOURCE_CONFIG : List (String × SourceConfig) :=
  [("fleet", fleetConfig), ("first_purchase", firstPurchaseConfig), ("upsell", upsellConfig)]

/-- DATA_SOURCES = Object.keys(SOURCE_CONFIG). -/
def DATA_SOURCES : List String := SOURCE_CONFIG.map Prod.fst

/-- getSourceConfig(dataSource): lowercases the key, rejects unknown/empty keys with
an error message that enumerates the allowed sources. -/
def getSourceConfig (dataSource : String) : Except String SourceConfig :=
  let key := lowerStr dataSource
  match (SOURCE_CONFIG.find? (fun kv => kv.fst = key)) with
  | some kv => Except.ok kv.snd
  | none =>
      Except.error ("Invalid dataSource: " ++ dataSource ++ ". Allowed: " ++
        String.intercalate ", " DATA_SOURCES)

/-! ### Rate expression (lines 152-168 of mrrpv.js) -/

/-- Build the aggregate MRRpV SQL expression for a source, exactly as mrrpv.js does:
per-row metric sources use a count-weighted average of the metric (dividing the
metric by 12 first when the annual flag is set); revenue sources divide summed
revenue by summed count, then by 12 when annual.  Rounded to 2 decimals in SQL. -/
def buildMrrpvExpr (config : SourceConfig) : String :=
  match config.valueCol with
  | some v =>
      let c := config.countCol
      let numer :=
        if config.annual then "SUM((" ++ v ++ " / 12) * " ++ c ++ ")"
        else "SUM(" ++ v ++ " * " ++ c ++ ")"
      "ROUND(" ++ numer ++ " / NULLIF(SUM(" ++ c ++ "), 0), 2)"
  | none =>
      let sumArr := "SUM(" ++ config.arrCol.getD "" ++ ")"
      let sumCount := "NULLIF(SUM(" ++ config.countCol ++ "), 0)"
      if config.annual then
        "ROUND((" ++ sumArr ++ " / " ++ sumCount ++ ") / 12, 2)"
      else
        "ROUND(" ++ sumArr ++ " / " ++ sumCount ++ ", 2)"

/-! ### Result shaping: the Overall summary (lines 314-336 of mrrpv.js) -/

/-- A shaped result row: nullable numeric fields as produced by the data mapping step. -/
structure DataRow where
  fleet_mrrpv : Option ℚ
  vehicle_count : Option ℚ
  acv : Option ℚ
  account_count : Option ℚ
  avg_deal_size : Option ℚ
deriving Repr, DecidableEq

/-- The derived Overall summary object. -/
structure Overall where
  fleet_mrrpv : Option ℚ
  vehicle_count : Option ℚ
  acv : Option ℚ
  account_count : Option ℚ
  avg_deal_size : Option ℚ
deriving Repr, DecidableEq

/-- data.reduce((s, r) => s + (Number(r.vehicle_count) || 0), 0). -/
def totalCount (data : List DataRow) : ℚ :=
  data.foldl (fun s r => s + numOr0 r.vehicle_count) 0

/-- data.reduce((s, r) => s + (Number(r.fleet_mrrpv) || 0) * (Number(r.vehicle_count) || 0), 0). -/
def sumMrrpvWeighted (data : List DataRow) : ℚ :=
  data.foldl (fun s r => s + numOr0 r.fleet_mrrpv * numOr0 r.vehicle_count) 0

/-- data.some((r) => r.acv != null) guarded sum of ACV. -/
def totalAcv (data : List DataRow) : Option ℚ :=
  if data.any (fun r => r.acv.isSome) then
    some (data.foldl (fun s r => s + numOr0 r.acv) 0)
  else none

/-- Sum of account_count under the same some-guard as mrrpv.js. -/
def totalAccountCount (data : List DataRow) : Option ℚ :=
  if data.any (fun r => r.account_count.isSome) then
    some (data.foldl (fun s r => s + numOr0 r.account_count) 0)
  else none

/-- Derive the Overall summary from the shaped rows, mirroring lines 314-336 of
mrrpv.js: more than one row gives the vehicle-count-weighted aggregate, exactly
one row is passed through (numeric-coerced), zero rows give null. -/
def computeOverall (data : List DataRow) : Option Overall :=
  if data.length > 1 then
    let tc := totalCount data
    let tAcv := totalAcv data
    let weighted : Option ℚ :=
      if tc > 0 then some (round2 (sumMrrpvWeighted data / tc)) else none
    let acct := totalAccountCount data
    let avgDeal : Option ℚ :=
      if data.any (fun r => r.avg_deal_size.isSome) then
        match acct, tAcv with
        | some ac, some ta => if ac > 0 then some (round2 (ta / ac)) else none
        | _, _ => none
      else none
    some { fleet_mrrpv := weighted, vehicle_count := some tc, acv := tAcv,
           account_count := acct, avg_deal_size := avgDeal }
  else if data.length = 1 then
    match data with
    | r :: _ =>
        some { fleet_mrrpv := r.fleet_mrrpv, vehicle_count := r.vehicle_count,
               acv := r.acv, account_count := r.account_count,
               avg_deal_size := r.avg_deal_size }
    | [] => none
  else none

/-! ### Bridge query grand totals (getBridgeMRRpV, lines 426-523 of mrrpv.js).
Only the fields involved in the grand-total rate are embedded (fleet_mrrpv,
vehicle_count, acv); the per-product contribution columns do not feed the rate. -/

/-- A shaped bridge row restricted to the fields the grand-total rate uses. -/
structure BridgeRow where
  fleet_mrrpv : Option ℚ
  vehicle_count : Option ℚ
  acv : Option ℚ
deriving Repr, DecidableEq

/-- The running totals accumulator of getBridgeMRRpV (rate-relevant fields). -/
structure BridgeTotals where
  vehicle_count : ℚ
  acv : ℚ
  mrrpvWeighted : ℚ
deriving Repr, DecidableEq

/-- Accumulate totals over the bridge rows exactly as the data.map loop does:
vehicle_count and acv add the row value or 0 when null; mrrpvWeighted adds
rate times count only when both are non-null. -/
def bridgeTotals (rows : List BridgeRow) : BridgeTotals :=
  rows.foldl
    (fun t r =>
      { vehicle_count := t.vehicle_count + r.vehicle_count.getD 0
        acv := t.acv + r.acv.getD 0
        mrrpvWeighted := t.mrrpvWeighted +
          (match r.fleet_mrrpv, r.vehicle_count with
           | some m, some c => m * c
           | _, _ => 0) })
    { vehicle_count := 0, acv := 0, mrrpvWeighted := 0 }

/-- grandTotals.fleet_mrrpv: round2(mrrpvWeighted / vcTotal) when the summed
vehicle count is positive, else null (lines 505-509). -/
def bridgeGrandRate (rows : List BridgeRow) : Option ℚ :=
  let t := bridgeTotals rows
  if t.vehicle_count > 0 then some (round2 (t.mrrpvWeighted / t.vehicle_count)) else none

/-! ### Filter validation (lines 120-140 of getMRRpV) -/

/-- The caller-supplied filters object.  List entries are nullable (the source
filters out null entries), scalars are optional. -/
structure FilterArgs where
  region : Option String := none
  segment : Option String := none
  industry : Option String := none
  regions : Option (List (Option String)) := none
  excludeRegions : Option (List (Option String)) := none
  segments : Option (List (Option String)) := none
  excludeSegments : Option (List (Option String)) := none
  industries : Option (List (Option String)) := none
  excludeIndustries : Option (List (Option String)) := none
deriving Repr, DecidableEq

/-- Array.isArray(l) ? l.filter((g) => g != null && String(g).length <= 100) : []
— null entries and entries longer than 100 characters are dropped. -/
def cleanList (o : Option (List (Option String))) : List String :=
  match o with
  | some l => l.filterMap (fun g =>
      match g with
      | some s => if s.length ≤ 100 then some s else none
      | none => none)
  | none => []

/-- The six effective filter lists after validation. -/
structure ValidLists where
  regions : List String
  excludeRegions : List String
  segments : List String
  excludeSegments : List String
  industries : List String
  excludeIndustries : List String
deriving Repr, DecidableEq

/-- A present scalar filter longer than the 100-character cap. -/
def scalarTooLong (o : Option String) : Bool :=
  match o with
  | some r => r.length > 100
  | none => false

/-- Validation of the filters object, mirroring lines 123-140 of getMRRpV in
order: scalar region/segment length checks throw, then each list is cleaned
(dropping null/overlong entries) and its cleaned size is capped at 50. -/
def validateFilters (f : FilterArgs) : Except String ValidLists :=
  if scalarTooLong f.region then Except.error "region filter too long"
  else if scalarTooLong f.segment then Except.error "segment filter too long"
  else
    let regionsList := cleanList f.regions
    let excludeRegionsList := cleanList f.excludeRegions
    let segmentsList := cleanList f.segments
    let excludeSegmentsList := cleanList f.excludeSegments
    let industriesList := cleanList f.industries
    let excludeIndustriesList := cleanList f.excludeIndustries
    if regionsList.length > 50 then Except.error "regions filter too long"
    else if excludeRegionsList.length > 50 then Except.error "excludeRegions filter too long"
    else if segmentsList.length > 50 then Except.error "segments filter too long"
    else if excludeSegmentsList.length > 50 then Except.error "excludeSegments filter too long"
    else if industriesList.length > 50 then Except.error "industries filter too long"
    else if excludeIndustriesList.length > 50 then Except.error "excludeIndustries filter too long"
    else Except.ok
      { regions := regionsList, excludeRegions := excludeRegionsList,
        segments := segmentsList, excludeSegments := excludeSegmentsList,
        industries := industriesList, excludeIndustries := excludeIndustriesList }

/-- timeWindow length guard (line 120): strings longer than 400 are rejected. -/
def checkTimeWindowLen (tw : Option String) : Except String Unit :=
  match tw with
  | some s => if s.length > 400 then Except.error "timeWindow too long" else Except.ok ()
  | none => Except.ok ()

/-- groupBy validation (lines 116-119): null passes, anything outside the
source's allowedGroupBy is rejected with a message enumerating the allowed set. -/
def checkGroupBy (dataSource : String) (config : SourceConfig) (groupBy : Option String) :
    Except String Unit :=
  match groupBy with
  | none => Except.ok ()
  | some g =>
      if g ∈ config.allowedGroupBy then Except.ok ()
      else Except.error ("Invalid groupBy: " ++ g ++ ". Allowed for " ++ dataSource ++ ": " ++
        String.intercalate ", " config.allowedGroupBy)

/-! ### SQL value escaping and WHERE construction (lines 87-92 and 177-217) -/

/-- Quote doubling on the character list: every single quote in the value is
replaced by two single quotes, as the replace call in mrrpv.js does. -/
def escChars : List Char → List Char
  | [] => []
  | c :: rest => if c = '\'' then '\'' :: '\'' :: escChars rest else c :: escChars rest

/-- String-level quote doubling, as applied to every interpolated filter value. -/
def escJs (s : String) : String := String.mk (escChars s.data)

/-- resolveTimeWindows: split on commas, trim, drop empties, escape quotes;
null when the input is missing or yields no parts. -/
def resolveTimeWindows (timeWindow : Option String) : Option (List String) :=
  match timeWindow with
  | none => none
  | some s =>
      let parts := ((splitComma s.data).map (fun cs => String.mk (trimChars cs))).filter
        (fun p => p ≠ "")
      if parts = [] then none else some (parts.map escJs)

/-- Render one escaped value as a single-quoted SQL literal. -/
def quoteVal (v : String) : String := "'" ++ escJs v ++ "'"

/-- list.join(sep) of JS arrays, by structural recursion. -/
def joinSep (sep : String) : List String → String
  | [] => ""
  | [x] => x
  | x :: xs => x ++ sep ++ joinSep sep xs

/-- The time-window conditions: equality for one period, an IN list for more. -/
def timeCondsFor (timeCol : String) (periods : Option (List String)) : List String :=
  match periods with
  | none => []
  | some [] => []
  | some [p] => [timeCol ++ " = '" ++ p ++ "'"]
  | some ps =>
      [timeCol ++ " IN (" ++
        joinSep ", " (ps.map (fun p => "'" ++ p ++ "'")) ++ ")"]

/-- A scalar dimension filter; a falsy (empty) scalar produces no condition. -/
def scalarCond (col : String) (o : Option String) : List String :=
  match o with
  | some r => if r = "" then [] else ["(" ++ col ++ " = '" ++ escJs r ++ "')"]
  | none => []

/-- One dimension block: include-list wins over exclude-list wins over scalar. -/
def dimConds (col : String) (incl excl : List String) (scalar : Option String) :
    List String :=
  if incl ≠ [] then
    ["(" ++ col ++ " IN (" ++
      joinSep ", " (incl.map (fun g => "'" ++ escJs g ++ "'")) ++ "))"]
  else if excl ≠ [] then
    ["(" ++ col ++ " NOT IN (" ++
      joinSep ", " (excl.map (fun g => "'" ++ escJs g ++ "'")) ++ "))"]
  else scalarCond col scalar

/-- The product predicate pushed for a resolved product count column. -/
def productConds (productCountCol : Option String) : List String :=
  match productCountCol with
  | some col => ["(" ++ col ++ " > 0)"]
  | none => []

/-- The WHERE conditions of getMRRpV in push order: time window, region block,
segment block, industry block (only for sources that allow industry), product
predicate. -/
def buildWhere (timeCol : String) (periods : Option (List String)) (v : ValidLists)
    (region segment industry : Option String) (hasIndustry : Bool)
    (productCountCol : Option String) : List String :=
  timeCondsFor timeCol periods ++
    dimConds "geo" v.regions v.excludeRegions region ++
    dimConds "segment" v.segments v.excludeSegments segment ++
    (if hasIndustry then dimConds "industry" v.industries v.excludeIndustries industry
     else []) ++
    productConds productCountCol

/-- where.length ? WHERE-joined : empty — the final clause text. -/
def whereClause (conds : List String) : String :=
  if conds = [] then "" else " WHERE " ++ joinSep " AND " conds

/-! ### A small regular-expression engine

The reconciliation safeguards (view-lock.js, include-restore.js) detect intent
with JavaScript regular expressions.  We embed the exact patterns over a small
backtracking matcher: character predicates, sequencing, alternation, star and
the zero-width word boundary, with case-insensitive matching encoded in the
predicates.  The matcher takes fuel for totality; the search tries every start
position, like the test method of an unanchored JS regex. -/

/-- Regular expressions as matched by the utterance heuristics. -/
inductive Re where
  | eps : Re
  | anyOf : (Char → Bool) → Re
  | seq : Re → Re → Re
  | alt : Re → Re → Re
  | star : Re → Re
  | wb : Re

/-- JS word character for the word boundary: ASCII letter, digit or underscore. -/
def isWordChar (c : Char) : Bool := c.isAlpha || c.isDigit || c = '_'

/-- Wordness of an optional context character (none at the string edges). -/
def optWord (o : Option Char) : Bool :=
  match o with
  | some c => isWordChar c
  | none => false

/-- Wordness of the next character, false at end of input. -/
def headWord (cs : List Char) : Bool :=
  match cs with
  | [] => false
  | c :: _ => isWordChar c

/-- Backtracking matcher in continuation style.  prev is the last consumed
character (for the word boundary), k the continuation.  The star only recurses
on strictly shorter input so backtracking terminates; fuel bounds the call
depth and makes the function structurally total. -/
def matchRe : Nat → Re → Option Char → List Char → (Option Char → List Char → Bool) → Bool
  | 0, _, _, _, _ => false
  | Nat.succ fuel, re, prev, cs, k =>
    match re with
    | Re.eps => k prev cs
    | Re.anyOf p =>
        match cs with
        | [] => false
        | c :: rest => p c && k (some c) rest
    | Re.seq a b => matchRe fuel a prev cs (fun pr rest => matchRe fuel b pr rest k)
    | Re.alt a b => matchRe fuel a prev cs k || matchRe fuel b prev cs k
    | Re.star a =>
        k prev cs ||
          matchRe fuel a prev cs (fun pr rest =>
            if rest.length < cs.length then matchRe fuel (Re.star a) pr rest k else false)
    | Re.wb => (optWord prev != headWord cs) && k prev cs

/-- Fuel sufficient for the embedded patterns: call depth is bounded by the
pattern size times the input length, and all patterns are small. -/
def reFuel (cs : List Char) : Nat := 400 * (cs.length + 2)

/-- Try a match at every start position, keeping the previous character as
word-boundary context — the unanchored test of a JS regex. -/
def searchRe (re : Re) (prev : Option Char) (cs : List Char) : Bool :=
  matchRe (reFuel cs) re prev cs (fun _ _ => true) ||
    match cs with
    | [] => false
    | c :: rest => searchRe re (some c) rest

/-- re.test(s) for an unanchored, case-insensitive JS regex. -/
def reTest (re : Re) (s : String) : Bool := searchRe re none s.data

/-- Anchored test (a pattern beginning with the caret). -/
def reTestStart (re : Re) (s : String) : Bool :=
  matchRe (reFuel s.data) re none s.data (fun _ _ => true)

/-- One case-insensitive literal character. -/
def chC (c : Char) : Re := Re.anyOf (fun x => x.toLower = c)

/-- One exact character. -/
def chE (c : Char) : Re := Re.anyOf (fun x => x = c)

/-- Case-insensitive literal string. -/
def litRe (s : String) : Re := s.data.foldr (fun c acc => Re.seq (chC c) acc) Re.eps

/-- Sequence a list of patterns. -/
def seqL (l : List Re) : Re := l.foldr Re.seq Re.eps

/-- Alternation over a non-empty list (the empty list never matches). -/
def altL (l : List Re) : Re :=
  match l with
  | [] => Re.anyOf (fun _ => false)
  | [r] => r
  | r :: rest => Re.alt r (altL rest)

/-- One or more of a pattern. -/
def rePlus (a : Re) : Re := Re.seq a (Re.star a)

/-- Zero or one of a pattern. -/
def reOpt (a : Re) : Re := Re.alt a Re.eps

/-- Whitespace class of the JS regexes. -/
def spc : Re := Re.anyOf Char.isWhitespace

/-- One or more whitespace characters. -/
def sp1 : Re := rePlus spc

/-- The JS dot: any character but a line break. -/
def dotCh : Re := Re.anyOf (fun c => c ≠ '\n' && c ≠ '\r')

/-- One or more arbitrary (non-newline) characters. -/
def dotPlus : Re := rePlus dotCh

/-- A decimal digit (the JS digit class). -/
def dig : Re := Re.anyOf Char.isDigit

/-! ### The utterance patterns of view-lock.js -/

/-- VIEW_CHANGE_PATTERNS: phrases asking for a different view or breakdown.
Each entry transcribes one JS regex in order.  Note the twelfth source pattern
begins with a digit class: its backslash-d was evidently meant as a word
boundary before differently, but the regex as written requires a digit. -/
def VIEW_CHANGE_PATTERNS : List Re :=
  [ seqL [Re.wb, litRe "by", sp1, litRe "industry", Re.wb],
    seqL [Re.wb, litRe "by", sp1, litRe "segment", Re.wb],
    seqL [Re.wb, litRe "by", sp1, litRe "geo", Re.wb],
    seqL [Re.wb, litRe "by", sp1, litRe "region", Re.wb],
    seqL [Re.wb, litRe "by", sp1, litRe "geo-segment", Re.wb],
    seqL [Re.wb, litRe "by", sp1, litRe "geo_segment", Re.wb],
    seqL [Re.wb, litRe "breakdown", sp1, litRe "by", Re.wb],
    seqL [Re.wb, litRe "switch", sp1, litRe "to", Re.wb],
    seqL [Re.wb, litRe "show", sp1, litRe "me", sp1, litRe "by", Re.wb],
    seqL [Re.wb, litRe "change", sp1, reOpt (seqL [litRe "to", sp1]),
          altL [litRe "view", litRe "breakdown"], Re.wb],
    seqL [Re.wb, litRe "different", sp1, litRe "view", Re.wb],
    seqL [dig, litRe "ifferently", sp1, litRe "by", Re.wb],
    seqL [Re.wb, litRe "group", reOpt (litRe "ed"), sp1, litRe "by", Re.wb],
    seqL [Re.wb, litRe "industry", sp1, litRe "view", Re.wb],
    seqL [Re.wb, litRe "geo", sp1, litRe "view", Re.wb],
    seqL [Re.wb, litRe "segment", sp1, litRe "view", Re.wb] ]

/-- The object group of the remove/exclude/include patterns:
rows?, emea, na, government, public sector, mm, cml, segment, region. -/
def filterObjectGroup : Re :=
  altL [seqL [litRe "row", reOpt (litRe "s")], litRe "emea", litRe "na",
        litRe "government", seqL [litRe "public", sp1, litRe "sector"],
        litRe "mm", litRe "cml", litRe "segment", litRe "region"]

/-- FILTER_ONLY_PATTERNS: phrases indicating filter-only intent, in order. -/
def FILTER_ONLY_PATTERNS : List Re :=
  [ seqL [Re.wb, litRe "remove", sp1, reOpt (seqL [litRe "the", sp1]), filterObjectGroup],
    seqL [Re.wb, litRe "exclude", sp1, reOpt (seqL [litRe "the", sp1]), filterObjectGroup],
    seqL [Re.wb, litRe "include", sp1, reOpt (seqL [litRe "the", sp1]), filterObjectGroup],
    seqL [Re.wb, altL [litRe "add", litRe "show", litRe "bring"], sp1, dotPlus, sp1,
          altL [litRe "back", litRe "again"], Re.wb],
    seqL [Re.wb, litRe "restore", sp1],
    seqL [Re.wb, litRe "only", sp1,
          altL [litRe "us", litRe "na", litRe "emea", litRe "show", litRe "display"], Re.wb],
    seqL [Re.wb, litRe "only", sp1, litRe "include", sp1, litRe "accounts", Re.wb],
    seqL [Re.wb, litRe "only", sp1, dotPlus, sp1, litRe "deal", reOpt (litRe "s"), Re.wb],
    seqL [Re.wb, litRe "deal", reOpt (litRe "s"), sp1, litRe "that", sp1,
          litRe "included", sp1],
    seqL [Re.wb, litRe "restrict", sp1, litRe "to", sp1, dotPlus, sp1,
          litRe "account", reOpt (litRe "s"), Re.wb],
    seqL [Re.wb, litRe "don", reOpt (chE '\''), litRe "t", sp1, litRe "include", sp1],
    seqL [Re.wb, litRe "drop", sp1, reOpt (seqL [litRe "the", sp1]),
          altL [seqL [litRe "row", reOpt (litRe "s")], litRe "emea", litRe "mm", litRe "cml"]],
    seqL [Re.wb, altL [litRe "filter", litRe "restrict"], sp1,
          altL [litRe "to", litRe "by"], Re.wb] ]

/-- The anchored fallback of isFilterOnlyRequest:
caret, then remove/exclude/include/only/drop and whitespace. -/
def filterFallbackRe : Re :=
  seqL [altL [litRe "remove", litRe "exclude", litRe "include", litRe "only", litRe "drop"],
        sp1]

/-- True if the message is only about filtering: no view-change pattern matches
and either a filter-only pattern matches or the short anchored fallback does. -/
def isFilterOnlyRequest (message : String) : Bool :=
  let text := jsTrim message
  if text = "" then false
  else if VIEW_CHANGE_PATTERNS.any (fun re => reTest re text) then false
  else if FILTER_ONLY_PATTERNS.any (fun re => reTest re text) then true
  else if reTestStart filterFallbackRe text && text.length < 120 then true
  else false

/-- TIME_REQUEST_PATTERNS: phrases explicitly requesting a time period. -/
def TIME_REQUEST_PATTERNS : List Re :=
  [ seqL [Re.wb, litRe "fy", dig, dig, Re.wb],
    seqL [Re.wb, litRe "fy", Re.star spc, dig, dig, Re.wb],
    seqL [Re.wb, reOpt (seqL [litRe "fiscal", sp1]), litRe "year", sp1, dig, dig, Re.wb],
    seqL [Re.wb, reOpt (seqL [litRe "only", sp1]), reOpt (seqL [litRe "show", sp1]),
          reOpt (seqL [litRe "for", sp1]), litRe "fy", dig, dig, Re.wb],
    seqL [Re.wb, litRe "fy", dig, dig, sp1, litRe "q",
          Re.anyOf (fun c => '1' ≤ c && c ≤ '4'), Re.wb],
    seqL [Re.wb, litRe "q", Re.anyOf (fun c => '1' ≤ c && c ≤ '4'), sp1,
          litRe "fy", dig, dig, Re.wb],
    seqL [Re.wb, litRe "last", sp1, rePlus dig, sp1, litRe "quarter",
          reOpt (litRe "s"), Re.wb],
    seqL [Re.wb, reOpt (seqL [litRe "only", sp1]), reOpt (seqL [litRe "show", sp1]),
          reOpt (seqL [litRe "data", sp1]), reOpt (seqL [litRe "for", sp1]),
          reOpt (seqL [litRe "the", sp1]), altL [litRe "quarter", litRe "period"], Re.wb],
    seqL [Re.wb, altL [litRe "from", litRe "between", litRe "since"], sp1, dotPlus, sp1,
          altL [litRe "to", litRe "through", seqL [litRe "onward", reOpt (litRe "s")]], Re.wb],
    seqL [Re.wb, litRe "only", sp1, litRe "show", sp1, litRe "fy", Re.wb],
    seqL [Re.wb, litRe "only", sp1, litRe "fy", Re.wb] ]

/-- True if the message explicitly requests a time period (view lock then keeps
the proposed time_window instead of forcing the current view). -/
def userRequestedTimeChange (message : String) : Bool :=
  let text := jsTrim message
  TIME_REQUEST_PATTERNS.any (fun re => reTest re text)

/-! ### The utterance patterns of include-restore.js -/

/-- INCLUDE_RESTORE_PATTERN: include, restore, add ... back, show ... again,
bring back — inside word boundaries. -/
def INCLUDE_RESTORE_PATTERN : Re :=
  seqL [Re.wb,
        altL [litRe "include", litRe "restore",
              seqL [litRe "add", sp1, dotPlus, sp1, litRe "back"],
              seqL [litRe "show", sp1, dotPlus, sp1, litRe "again"],
              seqL [litRe "bring", sp1, litRe "back"]],
        Re.wb]

/-- ADD_PRODUCT_PATTERN: the user is adding another product to the filter. -/
def ADD_PRODUCT_PATTERN : Re :=
  seqL [Re.wb,
        altL [litRe "also",
              seqL [litRe "and", sp1, litRe "also"],
              seqL [litRe "that", sp1, litRe "also", sp1, litRe "ha", reOpt (litRe "d")],
              seqL [litRe "in", sp1, litRe "addition"],
              seqL [litRe "add", sp1,
                    altL [litRe "aim4", litRe "vg", litRe "cm", litRe "telematics",
                          litRe "safety", litRe "st", litRe "flapps", litRe "cc",
                          litRe "cw", litRe "ct", litRe "cnav", litRe "moby", litRe "rp"],
                    Re.wb],
              seqL [litRe "only", sp1, altL [seqL [litRe "account", reOpt (litRe "s")],
                                             seqL [litRe "deal", reOpt (litRe "s")]],
                    sp1, litRe "that", sp1, litRe "also", sp1, litRe "ha", reOpt (litRe "d")],
              seqL [litRe "account", reOpt (litRe "s"), sp1, litRe "that", sp1,
                    litRe "also", sp1, litRe "ha", reOpt (litRe "d")],
              seqL [litRe "deal", reOpt (litRe "s"), sp1, litRe "that", sp1,
                    litRe "also", sp1, litRe "ha", reOpt (litRe "d")]],
        Re.wb]

/-- The only-MM pattern used by the ASP branch of applyCurrentViewLock. -/
def ONLY_MM_PATTERN : Re :=
  seqL [Re.wb, litRe "only", sp1, reOpt (seqL [litRe "include", sp1]),
        altL [litRe "mm", seqL [litRe "mid", reOpt (chE '-'), litRe "market"]],
        Re.star spc, reOpt (seqL [litRe "account", reOpt (litRe "s")]), Re.wb]

/-! ### Preset registry (first-purchase-views.js) and the view lock -/

/-- A preset view entry, restricted to the defaultParams fields the view lock
reads: timeWindow, groupBy and products.  The groupBy field distinguishes an
absent key (outer none, as in the ASP preset) from an explicit null (some
none), because the view lock fills defaults only for an absent group_by. -/
structure Preset where
  id : String
  timeWindow : Option String
  groupBy : Option (Option String)
  products : Option (List String)
deriving Repr, DecidableEq

/-- The most recent four quarters used by every preset. -/
def DEFAULT_FOUR_QUARTERS : String := "FY26 Q2,FY26 Q3,FY26 Q4,FY27 Q1"

/-- The preset registry returned by getViews, in order. -/
def PRESETS : List Preset :=
  [ { id := "first-purchase-overall", timeWindow := some DEFAULT_FOUR_QUARTERS,
      groupBy := some none, products := none },
    { id := "first-purchase-by-industry", timeWindow := some DEFAULT_FOUR_QUARTERS,
      groupBy := some (some "industry"), products := none },
    { id := "first-purchase-by-geo-segment", timeWindow := some DEFAULT_FOUR_QUARTERS,
      groupBy := some (some "geo_segment"), products := none },
    { id := "first-purchase-bridge", timeWindow := some DEFAULT_FOUR_QUARTERS,
      groupBy := some none, products := none },
    { id := "asp-investigation", timeWindow := some DEFAULT_FOUR_QUARTERS,
      groupBy := none, products := some ["cm", "vg", "aim4"] } ]

/-- views.find((v) => v.id === presetId). -/
def findPreset (presetId : String) : Option Preset :=
  PRESETS.find? (fun p => p.id = presetId)

/-- get_mrrpv tool arguments, with the fields the reconciliation safeguards
touch.  Array-or-scalar JSON fields are modelled as lists (the tool layer
wraps a scalar into a one-element list). -/
structure ToolArgs where
  time_window : Option String := none
  group_by : Option String := none
  preset_id : Option String := none
  view_type : Option String := none
  products : Option (List String) := none
  regions : Option (List String) := none
  segments : Option (List String) := none
  industries : Option (List String) := none
  exclude_regions : Option (List String) := none
  exclude_segments : Option (List String) := none
  exclude_industries : Option (List String) := none
  include_product : Option (List String) := none
deriving Repr, DecidableEq

/-- The client-supplied current view.  group_by distinguishes an absent key
(none) from an explicit null (some none), as applyCurrentViewLock does. -/
structure CurrentView where
  time_window : Option String := none
  group_by : Option (Option String) := none
  presetId : Option String := none
  products : Option (List String) := none
  regions : Option (List String) := none
  include_product : Option (List String) := none
  exclude_regions : Option (List String) := none
  exclude_segments : Option (List String) := none
  exclude_industries : Option (List String) := none
deriving Repr, DecidableEq

/-- Force get_mrrpv args to match the current view, mirroring
applyCurrentViewLock of view-lock.js: fill time window and group-by from the
preset defaults when missing, keep the current view time window unless the
user explicitly asked for a time period, force preset id, and per preset kind
force bridge/ASP view type (deleting group_by) or the current group_by. -/
def applyCurrentViewLock (args : ToolArgs) (currentView : CurrentView)
    (userMessage : Option String) : ToolArgs :=
  let timeWindow0 := currentView.time_window
  let groupBy0 := currentView.group_by
  let presetId : Option String :=
    match currentView.presetId with
    | some p => if p = "" then none else some p
    | none => none
  let filled : Option String × Option (Option String) :=
    match presetId with
    | some pid =>
        if timeWindow0 = none ∨ timeWindow0 = some "" ∨ groupBy0 = none then
          match findPreset pid with
          | some preset =>
              let tw := if timeWindow0 = none ∨ timeWindow0 = some "" then
                          preset.timeWindow else timeWindow0
              let gb := if groupBy0 = none then preset.groupBy else groupBy0
              (tw, gb)
          | none => (timeWindow0, groupBy0)
        else (timeWindow0, groupBy0)
    | none => (timeWindow0, groupBy0)
  let timeWindow := filled.fst
  let groupBy := filled.snd
  let preserveModelTime :=
    match userMessage with
    | some m => m ≠ "" && userRequestedTimeChange m
    | none => false
  let args := if preserveModelTime = false ∧ timeWindow ≠ none ∧ timeWindow ≠ some "" then
                { args with time_window := timeWindow }
              else args
  let args := match presetId with
              | some p => { args with preset_id := some p }
              | none => args
  let isBridge := presetId = some "first-purchase-bridge"
  let isASP := presetId = some "asp-investigation"
  if isBridge then
    { args with view_type := some "bridge", group_by := none }
  else if isASP then
    let products : List String :=
      match currentView.products with
      | some ps =>
          if ps ≠ [] then ps
          else match presetId.bind findPreset with
               | some preset =>
                   match preset.products with
                   | some dps => if dps ≠ [] then dps else ["cm", "vg", "aim4"]
                   | none => ["cm", "vg", "aim4"]
               | none => ["cm", "vg", "aim4"]
      | none =>
          match presetId.bind findPreset with
          | some preset =>
              match preset.products with
              | some dps => if dps ≠ [] then dps else ["cm", "vg", "aim4"]
              | none => ["cm", "vg", "aim4"]
          | none => ["cm", "vg", "aim4"]
    let args := { args with view_type := some "asp", products := some products,
                            group_by := none }
    let args :=
      match currentView.regions with
      | some rs =>
          if rs ≠ [] ∧ (args.regions = none ∨ args.regions = some []) then
            { args with regions := some rs }
          else args
      | none => args
    match userMessage with
    | some m =>
        if m ≠ "" ∧ reTest ONLY_MM_PATTERN (jsTrim m) then
          if args.segments = none ∨ args.segments = some [] then
            { args with segments := some ["MM"] }
          else args
        else args
    | none => args
  else
    match groupBy with
    | some (some g) => if g ≠ "" then { args with group_by := some g } else args
    | _ => args

/-! ### Include/restore correction (include-restore.js) -/

/-- needle is an initial segment of hay. -/
def leadsWith : List Char → List Char → Bool
  | _, [] => true
  | [], _ :: _ => false
  | h :: t, n :: nt => h = n && leadsWith t nt

/-- hay.includes(needle): the needle occurs contiguously somewhere in hay. -/
def containsSub (hay needle : List Char) : Bool :=
  leadsWith hay needle ||
    match hay with
    | [] => false
    | _ :: t => containsSub t needle

/-- s.includes(phrase) at the string level. -/
def strIncludes (s phrase : String) : Bool := containsSub s.data phrase.data

/-- PHRASE_TO_REGIONS: plain-English phrase to table values removed from
exclude_regions, in object insertion order. -/
def PHRASE_TO_REGIONS : List (String × List String) :=
  [ ("public sector", ["US - SLED", "US-SLED"]),
    ("government", ["US - SLED", "US-SLED"]),
    ("us-sled", ["US - SLED", "US-SLED"]),
    ("us sled", ["US - SLED", "US-SLED"]),
    ("emea", ["UK", "DACH", "FR", "BNL"]),
    ("europe", ["UK", "DACH", "FR", "BNL"]),
    ("na", ["US", "CA", "MX", "US - SLED", "US-SLED"]),
    ("north america", ["US", "CA", "MX", "US - SLED", "US-SLED"]),
    ("uk", ["UK"]),
    ("dach", ["DACH"]),
    ("fr", ["FR"]),
    ("france", ["FR"]),
    ("bnl", ["BNL"]),
    ("benelux", ["BNL"]),
    ("us", ["US"]),
    ("canada", ["CA"]),
    ("ca", ["CA"]),
    ("mexico", ["MX"]),
    ("mx", ["MX"]) ]

/-- PHRASE_TO_SEGMENTS: plain-English phrase to table values removed from
exclude_segments. -/
def PHRASE_TO_SEGMENTS : List (String × List String) :=
  [ ("cml", ["CML"]),
    ("mm", ["MM"]),
    ("mid market", ["MM"]),
    ("mid-market", ["MM"]),
    ("core", ["ENT - COR"]),
    ("ent - cor", ["ENT - COR"]),
    ("ent-cor", ["ENT - COR"]),
    ("select", ["ENT - SEL"]),
    ("ent - sel", ["ENT - SEL"]),
    ("ent-sel", ["ENT - SEL"]),
    ("strategic", ["ENT - STR"]),
    ("ent - str", ["ENT - STR"]),
    ("ent-str", ["ENT - STR"]),
    ("public sector mm", ["US - SLED-MM"]),
    ("government mm", ["US - SLED-MM"]),
    ("public sector mid market", ["US - SLED-MM"]),
    ("public sector sel", ["US - SLED-ENT - SEL"]),
    ("government sel", ["US - SLED-ENT - SEL"]),
    ("public sector select", ["US - SLED-ENT - SEL"]),
    ("government select", ["US - SLED-ENT - SEL"]),
    ("us - sled-mm", ["US - SLED-MM"]),
    ("us-sled-mm", ["US - SLED-MM"]),
    ("us - sled-ent - sel", ["US - SLED-ENT - SEL"]),
    ("us-sled-ent - sel", ["US - SLED-ENT - SEL"]) ]

/-- True if the trimmed message matches the include/restore intent pattern. -/
def isIncludeRestoreIntent (message : String) : Bool :=
  let text := jsTrim message
  if text = "" then false else reTest INCLUDE_RESTORE_PATTERN text

/-- Push each value not already present, as the inner loops of
getValuesToRestore do. -/
def pushNew (acc : List String) (values : List String) : List String :=
  values.foldl (fun a v => if v ∈ a then a else a ++ [v]) acc

/-- The resolved dimension table values to restore (regions and segments; the
source resolves no industries). -/
structure ValuesToRestore where
  regions : List String
  segments : List String
  industries : List String
deriving Repr, DecidableEq

/-- Resolve phrases occurring in the lowercased message to the table values to
remove from the exclude lists, in map order with de-duplication. -/
def getValuesToRestore (message : String) : ValuesToRestore :=
  let lower := lowerStr message
  let regions := PHRASE_TO_REGIONS.foldl
    (fun acc kv => if strIncludes lower kv.fst then pushNew acc kv.snd else acc) []
  let segments := PHRASE_TO_SEGMENTS.foldl
    (fun acc kv => if strIncludes lower kv.fst then pushNew acc kv.snd else acc) []
  { regions := regions, segments := segments, industries := [] }

/-- The exclude_regions block of the correction: remove the restored region
values from a present, non-empty list; delete the key when it empties. -/
def restoreRegionsStep (args : ToolArgs) (toRestore : ValuesToRestore) : ToolArgs :=
  match args.exclude_regions with
  | some l =>
      if toRestore.regions ≠ [] ∧ l ≠ [] then
        let next := l.filter (fun r => r ∉ toRestore.regions)
        if next = [] then { args with exclude_regions := none }
        else { args with exclude_regions := some next }
      else args
  | none => args

/-- The exclude_segments block of the correction. -/
def restoreSegmentsStep (args : ToolArgs) (toRestore : ValuesToRestore) : ToolArgs :=
  match args.exclude_segments with
  | some l =>
      if toRestore.segments ≠ [] ∧ l ≠ [] then
        let next := l.filter (fun s => s ∉ toRestore.segments)
        if next = [] then { args with exclude_segments := none }
        else { args with exclude_segments := some next }
      else args
  | none => args

/-- The exclude_industries block of the correction. -/
def restoreIndustriesStep (args : ToolArgs) (toRestore : ValuesToRestore) : ToolArgs :=
  match args.exclude_industries with
  | some l =>
      if toRestore.industries ≠ [] ∧ l ≠ [] then
        let next := l.filter (fun i => i ∉ toRestore.industries)
        if next = [] then { args with exclude_industries := none }
        else { args with exclude_industries := some next }
      else args
  | none => args

/-- Apply the include/restore correction to the tool args: when the message
shows include/restore intent and resolves to values, those values are removed
from each present, non-empty exclude list (regions, then segments, then
industries, as in the source); a list left empty is deleted. -/
def applyIncludeRestoreCorrection (args : ToolArgs) (currentView : CurrentView)
    (userMessage : String) : ToolArgs :=
  if ¬ isIncludeRestoreIntent userMessage then args
  else
    let toRestore := getValuesToRestore userMessage
    if toRestore.regions = [] ∧ toRestore.segments = [] ∧ toRestore.industries = [] then
      args
    else
      restoreIndustriesStep
        (restoreSegmentsStep (restoreRegionsStep args toRestore) toRestore) toRestore

/-- Merge the newly proposed products into the current product filter when the
message indicates adding a product: the result is the current list plus every
proposed trimmed, non-empty key not already present. -/
def applyProductFilterMerge (args : ToolArgs) (currentView : CurrentView)
    (userMessage : String) : ToolArgs :=
  let current : Option (List String) :=
    match currentView.include_product with
    | some l => if l ≠ [] then some l else none
    | none => none
  match current with
  | none => args
  | some cur =>
      if userMessage = "" then args
      else if ¬ reTest ADD_PRODUCT_PATTERN (jsTrim userMessage) then args
      else
        let fromArgs := (args.include_product).getD []
        let union := fromArgs.foldl
          (fun u p =>
            let key := jsTrim p
            if key ≠ "" ∧ key ∉ u then u ++ [key] else u) cur
        { args with include_product := some union }

/-- Modelled from the spec: the exclude-side merge of the View-State
Reconciler.  The repository performs this union through the language model
(prompt instructions in loop.js); no code under src implements it.  Per the
spec, when the utterance requests excluding more values, the new values are
unioned into the existing exclude-list. -/
def unionExclude (cur newVals : List String) : List String :=
  cur ++ newVals.filter (fun v => v ∉ cur)

/-! ### Product filters (PRODUCT_COUNT_COLUMNS, lines 67-80 and 110-114) -/

/-- Per-source product prefix to license/count column map. -/
def productCountColumns (dataSource : String) : List (String × String) :=
  if dataSource = "first_purchase" then
    [("aim4", "aim4_count"), ("vg", "vg_count"), ("cm", "cm_count"), ("st", "st_count"),
     ("cw", "cw_count"), ("ct", "ct_count"), ("cnav", "cnav_count"), ("fa", "fa_count"),
     ("rp", "rp_count"), ("qual", "qual_count"), ("cam", "cam_count"), ("moby", "moby_count"),
     ("sat", "sat_count"), ("ahd1", "ahd1_count"), ("cm_s", "cm_s_count"),
     ("cm_d", "cm_d_count")]
  else if dataSource = "upsell" then
    [("vg", "vg_upsell_qty"), ("cm", "cm_upsell_qty")]
  else if dataSource = "fleet" then
    [("vg", "total_vg"), ("cm", "total_cm"), ("st", "total_st"), ("cw", "total_cw"),
     ("ct", "total_ct"), ("cnav", "total_cn"), ("rp", "total_rp"), ("aim4", "total_am")]
  else []

/-- PRODUCT_COUNT_COLUMNS[dataSource]?.[key.toLowerCase()]. -/
def lookupProductCol (dataSource p : String) : Option String :=
  ((productCountColumns dataSource).find? (fun kv => kv.fst = lowerStr p)).map Prod.snd

/-- The single-product check of the src getMRRpV (lines 110-114): a falsy
include product yields no filter; an unknown one is rejected with the allowed
keys; a known one yields its count column. -/
def checkIncludeProduct (dataSource : String) (includeProduct : Option String) :
    Except String (Option String) :=
  match includeProduct with
  | none => Except.ok none
  | some p =>
      if p = "" then Except.ok none
      else
        match lookupProductCol dataSource p with
        | some col => Except.ok (some col)
        | none =>
            let allowed := joinSep ", " ((productCountColumns dataSource).map Prod.fst)
            Except.error ("Product \"" ++ p ++ "\" is not supported for " ++ dataSource ++
              " (include filter). Allowed: " ++ (if allowed = "" then "none" else allowed))

/-- One product predicate: the license-count column that must be positive. -/
structure ProductPred where
  col : String
deriving Repr, DecidableEq

/-- Render a product predicate as the SQL condition the query pushes. -/
def renderProductPred (p : ProductPred) : String := "(" ++ p.col ++ " > 0)"

/-- Evaluate a product predicate on a row, viewed as a column valuation. -/
def evalProductPred (row : String → ℚ) (p : ProductPred) : Bool := 0 < row p.col

/-- Modelled from the spec: the array-valued include_product handling of the
newest getMRRpV, which is absent from src (only its caller, the tool layer in
src/unnamed/part_006, is present there).  Per the spec, each requested product
key resolves to its count column and contributes one count-column-positive
predicate; the predicates are conjoined in the WHERE clause; an unknown key is
a hard rejection listing the allowed set. -/
def productPredsMulti (dataSource : String) : List String → Except String (List ProductPred)
  | [] => Except.ok []
  | k :: ks =>
      match lookupProductCol dataSource k with
      | some col =>
          match productPredsMulti dataSource ks with
          | Except.ok rest => Except.ok ({ col := col } :: rest)
          | Except.error e => Except.error e
      | none =>
          let allowed := joinSep ", " ((productCountColumns dataSource).map Prod.fst)
          Except.error ("Product \"" ++ k ++ "\" is not supported for " ++ dataSource ++
            " (include filter). Allowed: " ++ (if allowed = "" then "none" else allowed))

/-! ### SQL fragment scanner: literal structure and termination.

A scanner over the generated SQL text: outside state, a single quote opens a
literal; inside, a doubled quote is escaped content and a single quote closes
the literal.  stripLits erases literal contents (keeping the delimiting
quotes), exposing the structural skeleton of the fragment; scanState returns
the state after the fragment (false means all literals were terminated). -/

/-- Erase string-literal contents, keeping structure.  The Bool is the scanner
state: true inside a literal. -/
def stripLits : Bool → List Char → List Char
  | false, [] => []
  | false, c :: rest => if c = '\'' then '\'' :: stripLits true rest else c :: stripLits false rest
  | true, [] => []
  | true, [c] => if c = '\'' then ['\''] else []
  | true, c :: c2 :: rest2 =>
      if c = '\'' then
        if c2 = '\'' then stripLits true rest2 else '\'' :: stripLits false (c2 :: rest2)
      else stripLits true (c2 :: rest2)

/-- The scanner state after reading the fragment (true: inside a literal). -/
def scanState : Bool → List Char → Bool
  | st, [] => st
  | false, c :: rest => if c = '\'' then scanState true rest else scanState false rest
  | true, [c] => if c = '\'' then false else true
  | true, c :: c2 :: rest2 =>
      if c = '\'' then
        if c2 = '\'' then scanState true rest2 else scanState false (c2 :: rest2)
      else scanState true (c2 :: rest2)

/-- The structural skeleton of a generated SQL string. -/
def stripStr (s : String) : List Char := stripLits false s.data

/-- A string free of single quotes (registry identifiers are). -/
def noQuote (s : String) : Bool := s.data.all (fun c => c ≠ '\'')

/-- Replace every user value by a fixed placeholder: the canonical filter input
of the same shape. -/
def canonList (l : List String) : List String := l.map (fun _ => "x")

/-- Canonicalize the optional period list, preserving presence and length. -/
def canonPeriods (o : Option (List String)) : Option (List String) :=
  o.map canonList

/-- Canonicalize a scalar filter, preserving presence and emptiness. -/
def canonScalar (o : Option String) : Option String :=
  o.map (fun r => if r = "" then "" else "x")

/-- Canonicalize the six validated lists. -/
def canonLists (v : ValidLists) : ValidLists :=
  { regions := canonList v.regions, excludeRegions := canonList v.excludeRegions,
    segments := canonList v.segments, excludeSegments := canonList v.excludeSegments,
    industries := canonList v.industries, excludeIndustries := canonList v.excludeIndustries }

/-! ### Specification-side formulas and sample inputs -/

/-- The claimed weight sum: the sum of the rows' vehicle counts. -/
def weightSum (data : List DataRow) : ℚ :=
  (data.map (fun r => numOr0 r.vehicle_count)).sum

/-- The claimed weighted numerator: the sum of rate times weight over the rows. -/
def weightedRateSum (data : List DataRow) : ℚ :=
  (data.map (fun r => numOr0 r.fleet_mrrpv * numOr0 r.vehicle_count)).sum

/-- The bridge rows' summed vehicle counts. -/
def bridgeWeightSum (rows : List BridgeRow) : ℚ :=
  (rows.map (fun r => r.vehicle_count.getD 0)).sum

/-- The bridge rows' summed ACV. -/
def bridgeAcvSum (rows : List BridgeRow) : ℚ :=
  (rows.map (fun r => r.acv.getD 0)).sum

/-- The bridge rows' summed rate-times-weight. -/
def bridgeWeightedRateSum (rows : List BridgeRow) : ℚ :=
  (rows.map (fun r => r.fleet_mrrpv.getD 0 * r.vehicle_count.getD 0)).sum

/-- A value in the image of the quote-doubling escape. -/
def isEscapedForm (p : String) : Prop := ∃ q, p = escJs q

/-- The effective value of an optional list parameter (absent means empty). -/
def effList (o : Option (List String)) : List String := o.getD []

/-- Sample result row: rate 10 over 2 vehicles. -/
def sampleRowA : DataRow :=
  { fleet_mrrpv := some 10, vehicle_count := some 2, acv := none,
    account_count := none, avg_deal_size := none }

/-- Sample result row: rate 20 over 3 vehicles. -/
def sampleRowB : DataRow :=
  { fleet_mrrpv := some 20, vehicle_count := some 3, acv := none,
    account_count := none, avg_deal_size := none }

/-- Sample bridge row: rate 10 over 2 vehicles. -/
def sampleBridgeA : BridgeRow :=
  { fleet_mrrpv := some 10, vehicle_count := some 2, acv := some 240 }

/-- Sample bridge row: rate 20 over 3 vehicles. -/
def sampleBridgeB : BridgeRow :=
  { fleet_mrrpv := some 20, vehicle_count := some 3, acv := some 720 }

/-- A filter entry one character over the 100-character cap. -/
def longEntry : String := String.mk (List.replicate 101 'a')

/-- A filters object whose regions list carries one valid and one overlong entry. -/
def cexFilterIn : FilterArgs := { regions := some [some "US", some longEntry] }

/-- What validation returns for cexFilterIn: the overlong entry silently dropped. -/
def cexValidOut : ValidLists :=
  { regions := ["US"], excludeRegions := [], segments := [], excludeSegments := [],
    industries := [], excludeIndustries := [] }

/-- A current view on the industry preset, used as concrete reconciliation input. -/
def cvIndustry : CurrentView :=
  { time_window := some DEFAULT_FOUR_QUARTERS, group_by := some (some "industry"),
    presetId := some "first-purchase-by-industry" }

/-- Drifted proposed args: the model switched grouping, preset and dropped time. -/
def argsDrift : ToolArgs :=
  { time_window := none, group_by := some "geo", preset_id := some "first-purchase-overall" }

/-- A current view whose time window will collide with an explicit time request. -/
def cvTime : CurrentView :=
  { time_window := some "FY25 Q1", group_by := some (some "industry"),
    presetId := some "first-purchase-by-industry" }

/-- Proposed args carrying the explicitly requested quarter. -/
def argsTime : ToolArgs := { time_window := some "FY26 Q1" }

/-- Sample validated filter lists, one value carrying an embedded quote. -/
def sampleLists : ValidLists :=
  { regions := ["O'Brien Fleet", "US"], excludeRegions := [], segments := ["MM"],
    excludeSegments := [], industries := [], excludeIndustries := [] }

/-! ## Helper lemmas -/

theorem foldl_add_map {α : Type} (f : α → ℚ) (l : List α) (a : ℚ) :
    l.foldl (fun s r => s + f r) a = a + (l.map f).sum := by
  induction l generalizing a with
  | nil => simp
  | cons x xs ih => simp [ih, add_assoc]

theorem totalCount_eq (data : List DataRow) : totalCount data = weightSum data := by
  simpa [totalCount, weightSum] using foldl_add_map (fun r => numOr0 r.vehicle_count) data 0

theorem sumMrrpvWeighted_eq (data : List DataRow) :
    sumMrrpvWeighted data = weightedRateSum data := by
  simpa [sumMrrpvWeighted, weightedRateSum] using
    foldl_add_map (fun r => numOr0 r.fleet_mrrpv * numOr0 r.vehicle_count) data 0

theorem bridge_term_eq (r : BridgeRow) :
    (match r.fleet_mrrpv, r.vehicle_count with
     | some m, some c => m * c
     | _, _ => 0) = r.fleet_mrrpv.getD 0 * r.vehicle_count.getD 0 := by
  cases r.fleet_mrrpv <;> cases r.vehicle_count <;> simp

theorem bridgeTotals_spec (rows : List BridgeRow) :
    bridgeTotals rows =
      { vehicle_count := bridgeWeightSum rows, acv := bridgeAcvSum rows,
        mrrpvWeighted := bridgeWeightedRateSum rows } := by
  have h : ∀ (l : List BridgeRow) (t : BridgeTotals),
      List.foldl
        (fun t r =>
          { vehicle_count := t.vehicle_count + r.vehicle_count.getD 0
            acv := t.acv + r.acv.getD 0
            mrrpvWeighted := t.mrrpvWeighted +
              (match r.fleet_mrrpv, r.vehicle_count with
               | some m, some c => m * c
               | _, _ => 0) }) t l =
      { vehicle_count := t.vehicle_count + bridgeWeightSum l
        acv := t.acv + bridgeAcvSum l
        mrrpvWeighted := t.mrrpvWeighted + bridgeWeightedRateSum l } := by
    intro l
    induction l with
    | nil => intro t; simp [bridgeWeightSum, bridgeAcvSum, bridgeWeightedRateSum]
    | cons x xs ih =>
        intro t
        rw [List.foldl_cons, ih]
        simp only [bridgeWeightSum, bridgeAcvSum, bridgeWeightedRateSum,
          List.map_cons, List.sum_cons, BridgeTotals.mk.injEq]
        refine ⟨by ring, by ring, ?_⟩
        rw [bridge_term_eq]
        ring
  have h0 := h rows { vehicle_count := 0, acv := 0, mrrpvWeighted := 0 }
  simpa [bridgeTotals] using h0

/-! ## Claim theorems -/

/-- C2: for every source, the compiled aggregate rate expression is the
count-weighted average of the per-row metric for first_purchase (already
monthly, not divided by 12), and summed annual revenue over summed count
divided by 12 for fleet and upsell (annual flag set), rounded to 2 decimals. -/
theorem rate_expression_by_source :
    buildMrrpvExpr firstPurchaseConfig =
      "ROUND(SUM(mrrpv * vehicle_count) / NULLIF(SUM(vehicle_count), 0), 2)" ∧
    buildMrrpvExpr fleetConfig =
      "ROUND((SUM(fleet_arr) / NULLIF(SUM(vehicle_count), 0)) / 12, 2)" ∧
    buildMrrpvExpr upsellConfig =
      "ROUND((SUM(upsell_fleet_arr) / NULLIF(SUM(upsell_vehicle_count), 0)) / 12, 2)" :=
  ⟨rfl, rfl, rfl⟩

/-- C9: a one-row result's Overall is that row's values (numeric-coerced), and
a zero-row result has an empty row list and a null Overall, with no error. -/
theorem overall_single_and_empty :
    (∀ r : DataRow, computeOverall [r] =
      some { fleet_mrrpv := r.fleet_mrrpv, vehicle_count := r.vehicle_count,
             acv := r.acv, account_count := r.account_count,
             avg_deal_size := r.avg_deal_size }) ∧
    computeOverall [] = none := by
  refine ⟨fun r => ?_, ?_⟩ <;> simp [computeOverall]

/-- C1: for a result with two or more rows whose vehicle counts sum positive,
the Overall rate equals round2 of the vehicle-count-weighted average of the
row rates (not a plain average), and the bridge multi-quarter grand total uses
the same weighting. -/
theorem overall_rate_is_weighted_average (data : List DataRow) (rows : List BridgeRow)
    (h2 : 2 ≤ data.length) (hw : 0 < weightSum data) (hbw : 0 < bridgeWeightSum rows) :
    (computeOverall data).bind (fun o => o.fleet_mrrpv) =
      some (round2 (weightedRateSum data / weightSum data)) ∧
    bridgeGrandRate rows =
      some (round2 (bridgeWeightedRateSum rows / bridgeWeightSum rows)) := by
  constructor
  · have hlen : data.length > 1 := h2
    rw [computeOverall.eq_def, if_pos hlen]
    simp only [totalCount_eq, sumMrrpvWeighted_eq, if_pos hw]
    rfl

  · rw [bridgeGrandRate, bridgeTotals_spec]
    simp only [if_pos hbw]

/-- C1 witness: two concrete rows with counts 2 and 3, both in the pivot
overall and in the bridge grand total. -/
theorem overall_rate_is_weighted_average_witness :
    (computeOverall [sampleRowA, sampleRowB]).bind (fun o => o.fleet_mrrpv) =
      some (round2 (weightedRateSum [sampleRowA, sampleRowB] /
        weightSum [sampleRowA, sampleRowB])) ∧
    bridgeGrandRate [sampleBridgeA, sampleBridgeB] =
      some (round2 (bridgeWeightedRateSum [sampleBridgeA, sampleBridgeB] /
        bridgeWeightSum [sampleBridgeA, sampleBridgeB])) :=
  overall_rate_is_weighted_average [sampleRowA, sampleRowB] [sampleBridgeA, sampleBridgeB]
    (by decide)
    (by norm_num [weightSum, sampleRowA, sampleRowB, numOr0])
    (by norm_num [bridgeWeightSum, sampleBridgeA, sampleBridgeB])

/-- C8: an unknown data source and a grouping dimension outside the source's
allowedGroupBy are hard rejections whose messages enumerate the allowed set;
no silent default is applied. -/
theorem invalid_source_and_groupby_rejected (s ds g : String) (cfg : SourceConfig)
    (hs : lowerStr s ∉ DATA_SOURCES)
    (hcfg : getSourceConfig ds = Except.ok cfg)
    (hg : g ∉ cfg.allowedGroupBy) :
    getSourceConfig s = Except.error ("Invalid dataSource: " ++ s ++ ". Allowed: " ++
      String.intercalate ", " DATA_SOURCES) ∧
    checkGroupBy ds cfg (some g) = Except.error ("Invalid groupBy: " ++ g ++
      ". Allowed for " ++ ds ++ ": " ++ String.intercalate ", " cfg.allowedGroupBy) := by
  have h1 : lowerStr s ≠ "fleet" ∧ lowerStr s ≠ "first_purchase" ∧ lowerStr s ≠ "upsell" := by
    simpa [DATA_SOURCES, SOURCE_CONFIG] using hs
  constructor
  · rw [getSourceConfig.eq_def]
    simp [SOURCE_CONFIG, List.find?, Ne.symm h1.1, Ne.symm h1.2.1, Ne.symm h1.2.2]
  · rw [checkGroupBy]
    simp [hg]

/-- C8 witness: dataSource databricks is rejected with the enumerated sources;
groupBy industry is rejected for fleet with its enumerated dimensions. -/
theorem invalid_source_and_groupby_rejected_witness :
    getSourceConfig "databricks" =
      Except.error ("Invalid dataSource: " ++ "databricks" ++ ". Allowed: " ++
        String.intercalate ", " DATA_SOURCES) ∧
    checkGroupBy "fleet" fleetConfig (some "industry") =
      Except.error ("Invalid groupBy: " ++ "industry" ++ ". Allowed for " ++ "fleet" ++
        ": " ++ String.intercalate ", " fleetConfig.allowedGroupBy) :=
  invalid_source_and_groupby_rejected "databricks" "fleet" "industry" fleetConfig
    (by decide) rfl (by decide)

/-- C7 counterexample: a regions list with an entry over the 100-character cap
is not rejected; the entry is silently dropped and validation succeeds with a
different list than the caller supplied. -/
theorem filter_overlong_entry_dropped_counterexample :
    100 < longEntry.length ∧
    validateFilters cexFilterIn = Except.ok cexValidOut ∧
    cexValidOut.regions ≠ ["US", longEntry] := by
  refine ⟨by decide, rfl, ?_⟩
  decide

/-- C7 as amended: whenever validation succeeds, the effective lists are the
supplied lists with null and overlong entries silently dropped, every cleaned
list is within the 50-entry cap, and the scalar region/segment filters are
within the 100-character cap (oversize lists and oversize scalars are hard
rejections, but overlong list entries are dropped, not rejected). -/
theorem filter_caps_and_silent_drops (f : FilterArgs) (out : ValidLists)
    (h : validateFilters f = Except.ok out) :
    out.regions = cleanList f.regions ∧
    out.excludeRegions = cleanList f.excludeRegions ∧
    out.segments = cleanList f.segments ∧
    out.excludeSegments = cleanList f.excludeSegments ∧
    out.industries = cleanList f.industries ∧
    out.excludeIndustries = cleanList f.excludeIndustries ∧
    out.regions.length ≤ 50 ∧ out.excludeRegions.length ≤ 50 ∧
    out.segments.length ≤ 50 ∧ out.excludeSegments.length ≤ 50 ∧
    out.industries.length ≤ 50 ∧ out.excludeIndustries.length ≤ 50 ∧
    scalarTooLong f.region = false ∧ scalarTooLong f.segment = false := by
  rw [validateFilters] at h
  by_cases h1 : scalarTooLong f.region
  · rw [if_pos h1] at h; exact absurd h (by simp)
  rw [if_neg h1] at h
  by_cases h2 : scalarTooLong f.segment
  · rw [if_pos h2] at h; exact absurd h (by simp)
  rw [if_neg h2] at h
  by_cases h3 : (cleanList f.regions).length > 50
  · rw [if_pos h3] at h; exact absurd h (by simp)
  rw [if_neg h3] at h
  by_cases h4 : (cleanList f.excludeRegions).length > 50
  · rw [if_pos h4] at h; exact absurd h (by simp)
  rw [if_neg h4] at h
  by_cases h5 : (cleanList f.segments).length > 50
  · rw [if_pos h5] at h; exact absurd h (by simp)
  rw [if_neg h5] at h
  by_cases h6 : (cleanList f.excludeSegments).length > 50
  · rw [if_pos h6] at h; exact absurd h (by simp)
  rw [if_neg h6] at h
  by_cases h7 : (cleanList f.industries).length > 50
  · rw [if_pos h7] at h; exact absurd h (by simp)
  rw [if_neg h7] at h
  by_cases h8 : (cleanList f.excludeIndustries).length > 50
  · rw [if_pos h8] at h; exact absurd h (by simp)
  rw [if_neg h8] at h
  have hout : out =
      { regions := cleanList f.regions
        excludeRegions := cleanList f.excludeRegions
        segments := cleanList f.segments
        excludeSegments := cleanList f.excludeSegments
        industries := cleanList f.industries
        excludeIndustries := cleanList f.excludeIndustries } := by
    cases h; rfl
  subst hout
  simp only [Bool.not_eq_true] at h1 h2
  exact ⟨rfl, rfl, rfl, rfl, rfl, rfl, Nat.le_of_not_lt h3, Nat.le_of_not_lt h4,
    Nat.le_of_not_lt h5, Nat.le_of_not_lt h6, Nat.le_of_not_lt h7, Nat.le_of_not_lt h8,
    by simpa using h1, by simpa using h2⟩

/-- C7 witness for the amended theorem: the same oversize-entry input passes
validation and the effective list is the cleaned one. -/
theorem filter_caps_and_silent_drops_witness :
    cexValidOut.regions = cleanList cexFilterIn.regions ∧
    cexValidOut.excludeRegions = cleanList cexFilterIn.excludeRegions ∧
    cexValidOut.segments = cleanList cexFilterIn.segments ∧
    cexValidOut.excludeSegments = cleanList cexFilterIn.excludeSegments ∧
    cexValidOut.industries = cleanList cexFilterIn.industries ∧
    cexValidOut.excludeIndustries = cleanList cexFilterIn.excludeIndustries ∧
    cexValidOut.regions.length ≤ 50 ∧ cexValidOut.excludeRegions.length ≤ 50 ∧
    cexValidOut.segments.length ≤ 50 ∧ cexValidOut.excludeSegments.length ≤ 50 ∧
    cexValidOut.industries.length ≤ 50 ∧ cexValidOut.excludeIndustries.length ≤ 50 ∧
    scalarTooLong cexFilterIn.region = false ∧ scalarTooLong cexFilterIn.segment = false :=
  filter_caps_and_silent_drops cexFilterIn cexValidOut rfl

/-- C5: when the current view filters on product set P and the utterance
indicates adding product q, the effective product filter is the union of P
and q — membership is exactly P plus q, so P is never replaced by q alone. -/
theorem product_filter_merge_is_union (args : ToolArgs) (cv : CurrentView) (msg : String)
    (P : List String) (q : String)
    (hP : cv.include_product = some P) (hPne : P ≠ [])
    (hmsg : msg ≠ "") (hpat : reTest ADD_PRODUCT_PATTERN (jsTrim msg) = true)
    (hargs : args.include_product = some [q]) (hq : jsTrim q = q) (hqne : q ≠ "") :
    ∃ eff, (applyProductFilterMerge args cv msg).include_product = some eff ∧
      (∀ x, x ∈ eff ↔ x ∈ P ∨ x = q) ∧ ∀ p ∈ P, p ∈ eff := by
  have hstep : applyProductFilterMerge args cv msg =
      { args with include_product := some (if q ≠ "" ∧ q ∉ P then P ++ [q] else P) } := by
    rw [applyProductFilterMerge, hP, hargs]
    dsimp only
    rw [if_pos hPne]
    dsimp only
    rw [if_neg hmsg, hpat]
    rw [if_neg (by simp : ¬¬(true = true))]
    dsimp only [List.foldl]
    rw [hq]
  rw [hstep]
  by_cases hmem : q ∈ P
  · refine ⟨P, ?_, ?_, fun p hp => hp⟩
    · simp [hmem]
    · intro x
      constructor
      · exact fun hx => Or.inl hx
      · rintro (hx | rfl)
        · exact hx
        · exact hmem
  · refine ⟨P ++ [q], ?_, ?_, fun p hp => List.mem_append_left _ hp⟩
    · simp [hqne, hmem]
    · intro x
      simp [List.mem_append]

/-- C5 witness: current product filter cm, utterance also aim4, proposal aim4
— the effective filter is exactly the union of cm and aim4. -/
theorem product_filter_merge_is_union_witness :
    ∃ eff, (applyProductFilterMerge { include_product := some ["aim4"] }
        { include_product := some ["cm"] } "also aim4").include_product = some eff ∧
      (∀ x, x ∈ eff ↔ x ∈ ["cm"] ∨ x = "aim4") ∧ ∀ p ∈ ["cm"], p ∈ eff :=
  product_filter_merge_is_union { include_product := some ["aim4"] }
    { include_product := some ["cm"] } "also aim4" ["cm"] "aim4"
    rfl (by decide) (by decide) (by decide) rfl (by decide) (by decide)

theorem restoreSegmentsStep_exclude_regions (a : ToolArgs) (tR : ValuesToRestore) :
    (restoreSegmentsStep a tR).exclude_regions = a.exclude_regions := by
  unfold restoreSegmentsStep
  split
  · split
    · dsimp only
      split <;> rfl
    · rfl
  · rfl

theorem restoreIndustriesStep_exclude_regions (a : ToolArgs) (tR : ValuesToRestore) :
    (restoreIndustriesStep a tR).exclude_regions = a.exclude_regions := by
  unfold restoreIndustriesStep
  split
  · split
    · dsimp only
      split <;> rfl
    · rfl
  · rfl

/-- C4 as amended: excluding phrase X and then including X again restores the
pre-exclusion exclude-list exactly, provided that list shares no value with
the ones X resolves to (values of X already excluded beforehand are removed
too — see the counterexample); when the restored list empties, the parameter
is dropped entirely, indistinguishable from no filter. -/
theorem exclude_roundtrip_restores (L : List String) (args : ToolArgs) (cv : CurrentView)
    (msg : String)
    (hint : isIncludeRestoreIntent msg = true)
    (hvals : (getValuesToRestore msg).regions ≠ [])
    (hdisj : ∀ v ∈ L, v ∉ (getValuesToRestore msg).regions)
    (hargs : args.exclude_regions = some (unionExclude L (getValuesToRestore msg).regions)) :
    effList (applyIncludeRestoreCorrection args cv msg).exclude_regions = L ∧
    (L = [] → (applyIncludeRestoreCorrection args cv msg).exclude_regions = none) := by
  have hfilterR : (getValuesToRestore msg).regions.filter (fun v => v ∉ L) =
      (getValuesToRestore msg).regions := by
    rw [List.filter_eq_self]
    intro v hv
    simp only [decide_eq_true_eq]
    intro hvL
    exact hdisj v hvL hv
  have hunion : unionExclude L (getValuesToRestore msg).regions =
      L ++ (getValuesToRestore msg).regions := by
    rw [unionExclude, hfilterR]
  have hLfilter : L.filter (fun r => r ∉ (getValuesToRestore msg).regions) = L := by
    rw [List.filter_eq_self]
    intro v hv
    simpa using hdisj v hv
  have hRfilter : (getValuesToRestore msg).regions.filter
      (fun r => r ∉ (getValuesToRestore msg).regions) = [] := by
    simp
  have hnext : (L ++ (getValuesToRestore msg).regions).filter
      (fun r => r ∉ (getValuesToRestore msg).regions) = L := by
    rw [List.filter_append, hLfilter, hRfilter, List.append_nil]
  have hne : unionExclude L (getValuesToRestore msg).regions ≠ [] := by
    rw [hunion]
    simp [hvals]
  have happly : applyIncludeRestoreCorrection args cv msg =
      restoreIndustriesStep
        (restoreSegmentsStep (restoreRegionsStep args (getValuesToRestore msg))
          (getValuesToRestore msg)) (getValuesToRestore msg) := by
    rw [applyIncludeRestoreCorrection, hint]
    rw [if_neg (by simp)]
    rw [if_neg (fun hc => hvals hc.1)]
  have hreg : restoreRegionsStep args (getValuesToRestore msg) =
      (if L = [] then { args with exclude_regions := none }
       else { args with exclude_regions := some L }) := by
    unfold restoreRegionsStep
    rw [hargs]
    dsimp only
    rw [if_pos ⟨hvals, hne⟩, hunion, hnext]
  rw [happly, restoreIndustriesStep_exclude_regions, restoreSegmentsStep_exclude_regions,
    hreg]
  by_cases hL : L = []
  · rw [if_pos hL]
    exact ⟨by simp [effList, hL], fun _ => rfl⟩
  · rw [if_neg hL]
    exact ⟨by simp [effList], fun hc => absurd hc hL⟩

/-- C4 witness: exclude-list MX, exclude EMEA (UK, DACH, FR, BNL), then
include EMEA again — the effective exclude-list is back to exactly MX. -/
theorem exclude_roundtrip_restores_witness :
    effList (applyIncludeRestoreCorrection
      { exclude_regions := some (unionExclude ["MX"]
          (getValuesToRestore "include emea again").regions) }
      {} "include emea again").exclude_regions = ["MX"] ∧
    (["MX"] = ([] : List String) → (applyIncludeRestoreCorrection
      { exclude_regions := some (unionExclude ["MX"]
          (getValuesToRestore "include emea again").regions) }
      {} "include emea again").exclude_regions = none) :=
  exclude_roundtrip_restores ["MX"]
    { exclude_regions := some (unionExclude ["MX"]
        (getValuesToRestore "include emea again").regions) }
    {} "include emea again" (by decide) (by decide) (by decide) rfl

/-- C4 counterexample: with pre-exclusion list UK, excluding EMEA and then
including EMEA again does not restore UK — the whole list is dropped, so the
effective exclude-list is not set-equal to the original. -/
theorem exclude_roundtrip_counterexample :
    ¬ (∀ v, v ∈ effList (applyIncludeRestoreCorrection
        { exclude_regions := some (unionExclude ["UK"]
            (getValuesToRestore "include emea again").regions) }
        {} "include emea again").exclude_regions ↔ v ∈ ["UK"]) := by
  intro h
  have h1 : (applyIncludeRestoreCorrection
      { exclude_regions := some (unionExclude ["UK"]
          (getValuesToRestore "include emea again").regions) }
      {} "include emea again").exclude_regions = none := by decide
  have h2 := (h "UK").mpr (by simp)
  rw [h1] at h2
  simp [effList] at h2

/-- C3 as amended: on a filter-only utterance that does not itself request a
time period, the view lock forces time_window, preset and group_by from the
current view onto the proposed args (for a view that carries them and is not
the bridge or ASP preset, whose locked shapes have no group_by); when the
utterance does request a time period, the proposed time_window is kept — see
the counterexample. -/
theorem filter_only_lock_preserves_view (args : ToolArgs) (cv : CurrentView) (msg : String)
    (tw g pid : String)
    (hfo : isFilterOnlyRequest msg = true)
    (htime : userRequestedTimeChange msg = false)
    (htw : cv.time_window = some tw) (htw2 : tw ≠ "")
    (hg : cv.group_by = some (some g)) (hg2 : g ≠ "")
    (hp : cv.presetId = some pid) (hp2 : pid ≠ "")
    (hb : pid ≠ "first-purchase-bridge") (ha : pid ≠ "asp-investigation") :
    (applyCurrentViewLock args cv (some msg)).time_window = cv.time_window ∧
    (applyCurrentViewLock args cv (some msg)).preset_id = cv.presetId ∧
    (applyCurrentViewLock args cv (some msg)).group_by = some g := by
  simp only [applyCurrentViewLock, htw, hg, hp]
  simp [hp2, htw2, htime, hb, ha, hg2]

/-- C3 witness: the drifted proposal is locked back to the industry view on
the filter-only utterance exclude EMEA. -/
theorem filter_only_lock_preserves_view_witness :
    (applyCurrentViewLock argsDrift cvIndustry (some "exclude EMEA")).time_window =
      cvIndustry.time_window ∧
    (applyCurrentViewLock argsDrift cvIndustry (some "exclude EMEA")).preset_id =
      cvIndustry.presetId ∧
    (applyCurrentViewLock argsDrift cvIndustry (some "exclude EMEA")).group_by =
      some "industry" :=
  filter_only_lock_preserves_view argsDrift cvIndustry "exclude EMEA"
    DEFAULT_FOUR_QUARTERS "industry" "first-purchase-by-industry"
    (by decide) (by decide) rfl (by decide) rfl (by decide) rfl (by decide)
    (by decide) (by decide)

/-- C3 counterexample: the utterance exclude EMEA in FY26 is a filter-only
edit by the stated definition, yet the locked args keep the proposed FY26 Q1
time window rather than the current view's FY25 Q1, because the lock
deliberately preserves an explicitly requested time period. -/
theorem filter_only_lock_time_counterexample :
    isFilterOnlyRequest "exclude EMEA in FY26" = true ∧
    cvTime.time_window = some "FY25 Q1" ∧
    (applyCurrentViewLock argsTime cvTime (some "exclude EMEA in FY26")).time_window =
      some "FY26 Q1" ∧
    (applyCurrentViewLock argsTime cvTime (some "exclude EMEA in FY26")).time_window ≠
      cvTime.time_window := by
  refine ⟨by decide, rfl, by decide, by decide⟩

/-- C6: when every requested product key resolves, each key contributes the
count-column-positive predicate of its column, the predicate set corresponds
exactly to the requested keys, and a row satisfies the conjunction of the
predicates precisely when every requested product's count column is positive.
A one-key request renders the same condition the single-product path of the
src getMRRpV pushes into the WHERE clause. -/
theorem product_predicates_conjunction (ds : String) (keys : List String)
    (preds : List ProductPred)
    (h : productPredsMulti ds keys = Except.ok preds) :
    (∀ k ∈ keys, ∃ p ∈ preds, lookupProductCol ds k = some p.col) ∧
    (∀ p ∈ preds, ∃ k ∈ keys, lookupProductCol ds k = some p.col) ∧
    (∀ row : String → ℚ, preds.all (evalProductPred row) = true ↔
      ∀ k ∈ keys, ∀ col, lookupProductCol ds k = some col → 0 < row col) := by
  induction keys generalizing preds with
  | nil =>
      rw [productPredsMulti] at h
      cases h
      refine ⟨by simp, by simp, fun row => ?_⟩
      simp
  | cons k ks ih =>
      rw [productPredsMulti] at h
      cases hk : lookupProductCol ds k with
      | none => rw [hk] at h; exact absurd h (by simp)
      | some col =>
          rw [hk] at h
          cases hrest : productPredsMulti ds ks with
          | error e => rw [hrest] at h; exact absurd h (by simp)
          | ok rest =>
              rw [hrest] at h
              cases h
              obtain ⟨ih1, ih2, ih3⟩ := ih rest hrest
              refine ⟨?_, ?_, ?_⟩
              · intro k2 hk2
                rw [List.mem_cons] at hk2
                rcases hk2 with rfl | hk2
                · exact ⟨{ col := col }, by simp, hk⟩
                · obtain ⟨p, hp, hlook⟩ := ih1 k2 hk2
                  exact ⟨p, by simp [hp], hlook⟩
              · intro p hp
                rw [List.mem_cons] at hp
                rcases hp with rfl | hp
                · exact ⟨k, by simp, hk⟩
                · obtain ⟨k2, hk2, hlook⟩ := ih2 p hp
                  exact ⟨k2, by simp [hk2], hlook⟩
              · intro row
                rw [List.all_cons, Bool.and_eq_true, ih3 row]
                constructor
                · rintro ⟨hhead, htail⟩
                  intro k2 hk2 col2 hcol2
                  rw [List.mem_cons] at hk2
                  rcases hk2 with rfl | hk2
                  · rw [hk] at hcol2
                    cases hcol2
                    simpa [evalProductPred] using hhead
                  · exact htail k2 hk2 col2 hcol2
                · intro hall
                  refine ⟨?_, ?_⟩
                  · have := hall k (by simp) col hk
                    simpa [evalProductPred] using this
                  · intro k2 hk2 col2 hcol2
                    exact hall k2 (by simp [hk2]) col2 hcol2

/-- C6 witness: include_product cm and vg on first_purchase yields the two
predicates over cm_count and vg_count, and a row passes their conjunction
exactly when both counts are positive. -/
theorem product_predicates_conjunction_witness :
    (∀ k ∈ ["cm", "vg"], ∃ p ∈ [ProductPred.mk "cm_count", ProductPred.mk "vg_count"],
      lookupProductCol "first_purchase" k = some p.col) ∧
    (∀ p ∈ [ProductPred.mk "cm_count", ProductPred.mk "vg_count"],
      ∃ k ∈ ["cm", "vg"], lookupProductCol "first_purchase" k = some p.col) ∧
    (∀ row : String → ℚ,
      ([ProductPred.mk "cm_count", ProductPred.mk "vg_count"].all
        (evalProductPred row) = true) ↔
      ∀ k ∈ ["cm", "vg"], ∀ col, lookupProductCol "first_purchase" k = some col →
        0 < row col) :=
  product_predicates_conjunction "first_purchase" ["cm", "vg"]
    [ProductPred.mk "cm_count", ProductPred.mk "vg_count"] rfl

theorem data_append (a b : String) : (a ++ b).data = a.data ++ b.data := rfl

theorem escJs_data (s : String) : (escJs s).data = escChars s.data := rfl

theorem stripLits_false_nil : stripLits false [] = [] := rfl

theorem stripLits_false_cons (c : Char) (rest : List Char) :
    stripLits false (c :: rest) =
      if c = '\'' then '\'' :: stripLits true rest else c :: stripLits false rest := rfl

theorem stripLits_true_single (c : Char) :
    stripLits true [c] = if c = '\'' then ['\''] else [] := rfl

theorem stripLits_true_cons2 (c c2 : Char) (rest : List Char) :
    stripLits true (c :: c2 :: rest) =
      if c = '\'' then
        if c2 = '\'' then stripLits true rest else '\'' :: stripLits false (c2 :: rest)
      else stripLits true (c2 :: rest) := rfl

theorem scanState_false_cons (c : Char) (rest : List Char) :
    scanState false (c :: rest) =
      if c = '\'' then scanState true rest else scanState false rest := rfl

theorem scanState_true_single (c : Char) :
    scanState true [c] = if c = '\'' then false else true := rfl

theorem scanState_true_cons2 (c c2 : Char) (rest : List Char) :
    scanState true (c :: c2 :: rest) =
      if c = '\'' then
        if c2 = '\'' then scanState true rest else scanState false (c2 :: rest)
      else scanState true (c2 :: rest) := rfl

theorem escChars_cons (c : Char) (v : List Char) :
    escChars (c :: v) =
      if c = '\'' then '\'' :: '\'' :: escChars v else c :: escChars v := rfl

/-- Inside a literal, an escaped value followed by the closing quote strips to
just the closing quote: the value can neither terminate the literal nor leak
structure past it. -/
theorem strip_esc (v : List Char) : ∀ rest : List Char, rest.head? ≠ some '\'' →
    stripLits true (escChars v ++ '\'' :: rest) = '\'' :: stripLits false rest := by
  induction v with
  | nil =>
      intro rest h
      cases rest with
      | nil => rfl
      | cons c2 rest2 =>
          have hc2 : c2 ≠ '\'' := fun hh => h (by simp [hh])
          show stripLits true ('\'' :: c2 :: rest2) = _
          rw [stripLits_true_cons2, if_pos rfl, if_neg hc2]
  | cons c v ih =>
      intro rest h
      by_cases hc : c = '\''
      · subst hc
        rw [escChars_cons, if_pos rfl]
        show stripLits true ('\'' :: '\'' :: (escChars v ++ '\'' :: rest)) = _
        rw [stripLits_true_cons2, if_pos rfl, if_pos rfl]
        exact ih rest h
      · rw [escChars_cons, if_neg hc]
        cases hE : escChars v ++ '\'' :: rest with
        | nil => exact absurd hE (by simp)
        | cons c2 rest2 =>
            show stripLits true (c :: (escChars v ++ '\'' :: rest)) = _
            rw [hE, stripLits_true_cons2, if_neg hc, ← hE]
            exact ih rest h

/-- The scanner leaves the literal exactly at the closing quote. -/
theorem scan_esc (v : List Char) : ∀ rest : List Char, rest.head? ≠ some '\'' →
    scanState true (escChars v ++ '\'' :: rest) = scanState false rest := by
  induction v with
  | nil =>
      intro rest h
      cases rest with
      | nil => rfl
      | cons c2 rest2 =>
          have hc2 : c2 ≠ '\'' := fun hh => h (by simp [hh])
          show scanState true ('\'' :: c2 :: rest2) = _
          rw [scanState_true_cons2, if_pos rfl, if_neg hc2]
  | cons c v ih =>
      intro rest h
      by_cases hc : c = '\''
      · subst hc
        rw [escChars_cons, if_pos rfl]
        show scanState true ('\'' :: '\'' :: (escChars v ++ '\'' :: rest)) = _
        rw [scanState_true_cons2, if_pos rfl, if_pos rfl]
        exact ih rest h
      · rw [escChars_cons, if_neg hc]
        cases hE : escChars v ++ '\'' :: rest with
        | nil => exact absurd hE (by simp)
        | cons c2 rest2 =>
            show scanState true (c :: (escChars v ++ '\'' :: rest)) = _
            rw [hE, scanState_true_cons2, if_neg hc, ← hE]
            exact ih rest h

/-- Quote-free text passes through the outside-literal scanner unchanged. -/
theorem strip_noq (a : List Char) (h : ∀ c ∈ a, c ≠ '\'') (b : List Char) :
    stripLits false (a ++ b) = a ++ stripLits false b := by
  induction a with
  | nil => simp
  | cons c a ih =>
      have hc : c ≠ '\'' := h c (by simp)
      rw [List.cons_append, stripLits_false_cons, if_neg hc,
        ih (fun x hx => h x (by simp [hx])), List.cons_append]

theorem strip_noq_self (a : List Char) (h : ∀ c ∈ a, c ≠ '\'') :
    stripLits false a = a := by
  simpa [stripLits_false_nil] using strip_noq a h []

theorem noQuote_mem (s : String) (h : noQuote s = true) : ∀ c ∈ s.data, c ≠ '\'' := by
  intro c hc
  have := List.all_eq_true.mp h c hc
  simpa using this

theorem noq_append (a b : List Char) (ha : ∀ c ∈ a, c ≠ '\'') (hb : ∀ c ∈ b, c ≠ '\'') :
    ∀ c ∈ a ++ b, c ≠ '\'' := by
  intro c hc
  rcases List.mem_append.mp hc with h | h
  exacts [ha c h, hb c h]

theorem quote_data : ("'" : String).data = ['\''] := rfl

theorem comma_space_data : (", " : String).data = [',', ' '] := rfl

theorem quoted_data (x : String) (tail : List Char) :
    ("'" ++ x ++ "'").data ++ tail = '\'' :: (x.data ++ '\'' :: tail) := by
  simp [data_append, quote_data, List.append_assoc]

theorem joinSep_nil (sep : String) : joinSep sep [] = "" := rfl

theorem joinSep_single (sep x : String) : joinSep sep [x] = x := rfl

theorem joinSep_cons2 (sep x y : String) (r : List String) :
    joinSep sep (x :: y :: r) = x ++ sep ++ joinSep sep (y :: r) := rfl

/-- Two joined lists of quoted escaped values of equal length strip to the
same skeleton: the values cannot change the structure of an IN list. -/
theorem strip_join_pair : ∀ (Ps Qs : List String), Ps.length = Qs.length →
    (∀ p ∈ Ps, isEscapedForm p) → (∀ q ∈ Qs, isEscapedForm q) →
    ∀ rest rest' : List Char, rest.head? ≠ some '\'' → rest'.head? ≠ some '\'' →
      stripLits false rest = stripLits false rest' →
      stripLits false ((joinSep ", " (Ps.map (fun p => "'" ++ p ++ "'"))).data ++ rest) =
      stripLits false ((joinSep ", " (Qs.map (fun q => "'" ++ q ++ "'"))).data ++ rest') := by
  intro Ps
  induction Ps with
  | nil =>
      intro Qs hlen hP hQ rest rest' h1 h2 h3
      cases Qs with
      | nil => simpa [joinSep_nil] using h3
      | cons q Qs => simp at hlen
  | cons p Ps ih =>
      intro Qs hlen hP hQ rest rest' h1 h2 h3
      cases Qs with
      | nil => simp at hlen
      | cons q Qs =>
          obtain ⟨u, hu⟩ := hP p (by simp)
          obtain ⟨w, hw⟩ := hQ q (by simp)
          subst hu hw
          cases Ps with
          | nil =>
              cases Qs with
              | cons q2 Qs2 => simp at hlen
              | nil =>
                  rw [List.map_cons, List.map_nil, List.map_cons, List.map_nil,
                    joinSep_single, joinSep_single, quoted_data, quoted_data]
                  rw [stripLits_false_cons, if_pos rfl, stripLits_false_cons, if_pos rfl]
                  rw [escJs_data, escJs_data, strip_esc u.data rest h1,
                    strip_esc w.data rest' h2, h3]
          | cons p2 Ps2 =>
              cases Qs with
              | nil => simp at hlen
              | cons q2 Qs2 =>
                  have hlen2 : (p2 :: Ps2).length = (q2 :: Qs2).length := by
                    simpa using hlen
                  have hP2 : ∀ x ∈ p2 :: Ps2, isEscapedForm x := by
                    intro x hx; exact hP x (by simp [hx])
                  have hQ2 : ∀ x ∈ q2 :: Qs2, isEscapedForm x := by
                    intro x hx; exact hQ x (by simp [hx])
                  have ihr := ih (q2 :: Qs2) hlen2 hP2 hQ2 rest rest' h1 h2 h3
                  simp only [List.map_cons] at ihr ⊢
                  rw [joinSep_cons2, joinSep_cons2]
                  have e1 : ∀ (x : String) (J : String) (tail : List Char),
                      ("'" ++ x ++ "'" ++ ", " ++ J).data ++ tail =
                      '\'' :: (x.data ++ '\'' :: ([',', ' '] ++ (J.data ++ tail))) := by
                    intro x J tail
                    simp [data_append, quote_data, comma_space_data, List.append_assoc]
                  rw [e1, e1]
                  rw [stripLits_false_cons, if_pos rfl, stripLits_false_cons, if_pos rfl]
                  rw [escJs_data, escJs_data]
                  rw [strip_esc u.data _ (by simp), strip_esc w.data _ (by simp)]
                  rw [strip_noq [',', ' '] (by decide), strip_noq [',', ' '] (by decide)]
                  rw [ihr]

theorem strip_cond_single (A B : List Char) (u w : String)
    (hA : ∀ c ∈ A, c ≠ '\'') (hB : B.head? ≠ some '\'') :
    stripLits false (A ++ '\'' :: ((escJs u).data ++ '\'' :: B)) =
    stripLits false (A ++ '\'' :: ((escJs w).data ++ '\'' :: B)) := by
  rw [strip_noq A hA, strip_noq A hA]
  rw [stripLits_false_cons, if_pos rfl, stripLits_false_cons, if_pos rfl]
  rw [escJs_data, escJs_data, strip_esc u.data B hB, strip_esc w.data B hB]

theorem strip_cond_join (A B : List Char) (Ps Qs : List String)
    (hA : ∀ c ∈ A, c ≠ '\'') (hB : B.head? ≠ some '\'')
    (hlen : Ps.length = Qs.length)
    (hPs : ∀ p ∈ Ps, isEscapedForm p) (hQs : ∀ q ∈ Qs, isEscapedForm q) :
    stripLits false (A ++ ((joinSep ", " (Ps.map (fun p => "'" ++ p ++ "'"))).data ++ B)) =
    stripLits false (A ++ ((joinSep ", " (Qs.map (fun q => "'" ++ q ++ "'"))).data ++ B)) := by
  rw [strip_noq A hA, strip_noq A hA]
  rw [strip_join_pair Ps Qs hlen hPs hQs B B hB hB rfl]

theorem resolveTimeWindows_escaped (tw : Option String) (ps : List String)
    (h : resolveTimeWindows tw = some ps) : ∀ p ∈ ps, isEscapedForm p := by
  intro p hp
  cases tw with
  | none => simp [resolveTimeWindows] at h
  | some s =>
      simp only [resolveTimeWindows] at h
      split at h
      · exact absurd h (by simp)
      · cases h
        obtain ⟨q, _, rfl⟩ := List.mem_map.mp hp
        exact ⟨q, rfl⟩

theorem canonList_escaped (l : List String) : ∀ p ∈ canonList l, isEscapedForm p := by
  intro p hp
  obtain ⟨q, _, rfl⟩ := List.mem_map.mp hp
  exact ⟨"x", rfl⟩

theorem canonList_length (l : List String) : (canonList l).length = l.length :=
  List.length_map l _

theorem timeConds_strip (timeCol : String) (hts : noQuote timeCol = true)
    (tw : Option String) :
    (timeCondsFor timeCol (resolveTimeWindows tw)).map stripStr =
    (timeCondsFor timeCol (canonPeriods (resolveTimeWindows tw))).map stripStr := by
  cases hres : resolveTimeWindows tw with
  | none => rfl
  | some ps =>
      have hesc := resolveTimeWindows_escaped tw ps hres
      cases ps with
      | nil => rfl
      | cons p ps2 =>
          cases ps2 with
          | nil =>
              obtain ⟨u, rfl⟩ := hesc p (by simp)
              show [stripStr (timeCol ++ " = '" ++ escJs u ++ "'")] =
                [stripStr (timeCol ++ " = '" ++ "x" ++ "'")]
              have e : ∀ v : String, (timeCol ++ " = '" ++ v ++ "'").data =
                  (timeCol.data ++ [' ', '=', ' ']) ++ '\'' :: (v.data ++ '\'' :: []) := by
                intro v
                simp [data_append, List.append_assoc]
              have hx : ("x" : String) = escJs "x" := rfl
              rw [stripStr, stripStr, e, e, hx]
              rw [strip_cond_single (timeCol.data ++ [' ', '=', ' ']) [] u "x"
                (noq_append _ _ (noQuote_mem timeCol hts) (by decide)) (by simp)]
          | cons p2 ps3 =>
              have hlen : (canonList (p :: p2 :: ps3)).length = (p :: p2 :: ps3).length :=
                canonList_length _
              show [stripStr (timeCol ++ " IN (" ++ joinSep ", "
                  ((p :: p2 :: ps3).map (fun q => "'" ++ q ++ "'")) ++ ")")] =
                [stripStr (timeCol ++ " IN (" ++ joinSep ", "
                  ((canonList (p :: p2 :: ps3)).map (fun q => "'" ++ q ++ "'")) ++ ")")]
              have e : ∀ J : String, (timeCol ++ " IN (" ++ J ++ ")").data =
                  (timeCol.data ++ [' ', 'I', 'N', ' ', '(']) ++ (J.data ++ [')']) := by
                intro J
                simp [data_append, List.append_assoc]
              rw [stripStr, stripStr, e, e]
              rw [strip_cond_join (timeCol.data ++ [' ', 'I', 'N', ' ', '(']) [')']
                (p :: p2 :: ps3) (canonList (p :: p2 :: ps3))
                (noq_append _ _ (noQuote_mem timeCol hts) (by decide)) (by simp)
                hlen.symm hesc (canonList_escaped _)]

theorem canon_preserves_branch (l : List String) : canonList l ≠ [] ↔ l ≠ [] := by
  simp [canonList]

theorem dimConds_strip (col : String) (hcol : noQuote col = true)
    (incl excl : List String) (scalar : Option String) :
    (dimConds col incl excl scalar).map stripStr =
    (dimConds col (canonList incl) (canonList excl) (canonScalar scalar)).map stripStr := by
  by_cases hi : incl ≠ []
  · rw [dimConds, dimConds, if_pos hi, if_pos ((canon_preserves_branch incl).mpr hi)]
    have hmap : ∀ l : List String, l.map (fun g => "'" ++ escJs g ++ "'") =
        (l.map escJs).map (fun p => "'" ++ p ++ "'") := by
      intro l
      simp [List.map_map, Function.comp]
    have e : ∀ J : String, ("(" ++ col ++ " IN (" ++ J ++ "))").data =
        ('(' :: col.data ++ [' ', 'I', 'N', ' ', '(']) ++ (J.data ++ [')', ')']) := by
      intro J
      simp [data_append, List.append_assoc]
    have hesc : ∀ l : List String, ∀ p ∈ l.map escJs, isEscapedForm p := by
      intro l p hp
      obtain ⟨q, _, rfl⟩ := List.mem_map.mp hp
      exact ⟨q, rfl⟩
    have hlen : (incl.map escJs).length = ((canonList incl).map escJs).length := by
      simp [canonList]
    simp only [List.map_cons, List.map_nil, stripStr]
    rw [hmap incl, hmap (canonList incl), e, e]
    rw [strip_cond_join ('(' :: col.data ++ [' ', 'I', 'N', ' ', '(']) [')', ')']
      (incl.map escJs) ((canonList incl).map escJs)
      (by
        intro c hc
        rcases List.mem_cons.mp hc with rfl | hc2
        · decide
        · exact noq_append _ _ (noQuote_mem col hcol) (by decide) c hc2)
      (by simp) hlen (hesc incl) (hesc (canonList incl))]
  · rw [dimConds, dimConds, if_neg hi,
      if_neg (fun hh => hi ((canon_preserves_branch incl).mp hh))]
    by_cases he : excl ≠ []
    · rw [if_pos he, if_pos ((canon_preserves_branch excl).mpr he)]
      have hmap : ∀ l : List String, l.map (fun g => "'" ++ escJs g ++ "'") =
          (l.map escJs).map (fun p => "'" ++ p ++ "'") := by
        intro l
        simp [List.map_map, Function.comp]
      have e : ∀ J : String, ("(" ++ col ++ " NOT IN (" ++ J ++ "))").data =
          ('(' :: col.data ++ [' ', 'N', 'O', 'T', ' ', 'I', 'N', ' ', '(']) ++
            (J.data ++ [')', ')']) := by
        intro J
        simp [data_append, List.append_assoc]
      have hesc : ∀ l : List String, ∀ p ∈ l.map escJs, isEscapedForm p := by
        intro l p hp
        obtain ⟨q, _, rfl⟩ := List.mem_map.mp hp
        exact ⟨q, rfl⟩
      have hlen : (excl.map escJs).length = ((canonList excl).map escJs).length := by
        simp [canonList]
      simp only [List.map_cons, List.map_nil, stripStr]
      rw [hmap excl, hmap (canonList excl), e, e]
      rw [strip_cond_join ('(' :: col.data ++ [' ', 'N', 'O', 'T', ' ', 'I', 'N', ' ', '('])
        [')', ')'] (excl.map escJs) ((canonList excl).map escJs)
        (by
          intro c hc
          rcases List.mem_cons.mp hc with rfl | hc2
          · decide
          · exact noq_append _ _ (noQuote_mem col hcol) (by decide) c hc2)
        (by simp) hlen (hesc excl) (hesc (canonList excl))]
    · rw [if_neg he, if_neg (fun hh => he ((canon_preserves_branch excl).mp hh))]
      cases scalar with
      | none => rfl
      | some r =>
          simp only [canonScalar, Option.map, scalarCond]
          by_cases hr : r = ""
          · rw [if_pos hr, if_pos (by simp [hr])]
          · have hxesc : (if r = "" then ("" : String) else "x") = "x" := by
              rw [if_neg hr]
            rw [if_neg hr, hxesc, if_neg (by simp : ¬("x" : String) = "")]
            have e : ∀ v : String, ("(" ++ col ++ " = '" ++ escJs v ++ "')").data =
                ('(' :: col.data ++ [' ', '=', ' ']) ++
                  '\'' :: ((escJs v).data ++ '\'' :: [')']) := by
              intro v
              simp [data_append, List.append_assoc]
            simp only [List.map_cons, List.map_nil, stripStr]
            refine congrArg (fun z => [z]) ?_
            rw [e r, e "x"]
            exact strip_cond_single ('(' :: col.data ++ [' ', '=', ' ']) [')'] r "x"
              (by
                intro c hc
                rcases List.mem_cons.mp hc with rfl | hc2
                · decide
                · exact noq_append _ _ (noQuote_mem col hcol) (by decide) c hc2)
              (by simp)

/-- C10: user-supplied filter and time-window values are emitted only inside
single-quoted literals with embedded quotes doubled: a rendered literal strips
to a bare quote pair, the scanner closes it (no value can terminate the
literal early), and the structural skeleton of every generated WHERE condition
is unchanged when all values are replaced by a fixed placeholder — so no value
can change the query's structure.  Identifiers enter buildWhere only as the
timeCol/product-column parameters and the fixed geo/segment/industry column
names, drawn from the static source registry, never from filter values. -/
theorem sql_values_escaped_and_inert :
    (∀ v : String, stripStr (quoteVal v) = ['\'', '\'']) ∧
    (∀ v : String, scanState false (quoteVal v).data = false) ∧
    (∀ (timeCol : String) (tw : Option String) (vl : ValidLists)
       (r s i : Option String) (hasInd : Bool) (pcol : Option String),
       noQuote timeCol = true →
       (buildWhere timeCol (resolveTimeWindows tw) vl r s i hasInd pcol).map stripStr =
       (buildWhere timeCol (canonPeriods (resolveTimeWindows tw)) (canonLists vl)
         (canonScalar r) (canonScalar s) (canonScalar i) hasInd pcol).map stripStr) := by
  have equote : ∀ v : String, (quoteVal v).data =
      '\'' :: ((escJs v).data ++ '\'' :: []) := by
    intro v
    simp [quoteVal, data_append, quote_data, List.append_assoc]
  refine ⟨?_, ?_, ?_⟩
  · intro v
    rw [stripStr, equote v, stripLits_false_cons, if_pos rfl, escJs_data,
      strip_esc v.data [] (by simp)]
    rfl
  · intro v
    rw [equote v, scanState_false_cons, if_pos rfl, escJs_data,
      scan_esc v.data [] (by simp)]
    rfl
  · intro timeCol tw vl r s i hasInd pcol hts
    have hind : (if hasInd then dimConds "industry" vl.industries vl.excludeIndustries i
        else []).map stripStr =
        (if hasInd then dimConds "industry" (canonList vl.industries)
          (canonList vl.excludeIndustries) (canonScalar i) else []).map stripStr := by
      cases hasInd with
      | false => rfl
      | true =>
          simpa using dimConds_strip "industry" (by decide) vl.industries
            vl.excludeIndustries i
    rw [buildWhere, buildWhere]
    simp only [List.map_append, canonLists]
    rw [timeConds_strip timeCol hts tw,
      dimConds_strip "geo" (by decide) vl.regions vl.excludeRegions r,
      dimConds_strip "segment" (by decide) vl.segments vl.excludeSegments s,
      hind]

/-- C10 witness: a concrete two-quarter window, a region list and a scalar
segment value with embedded quotes keep the same stripped WHERE skeleton as
the placeholder run. -/
theorem sql_values_escaped_and_inert_witness :
    (buildWhere "close_quarter" (resolveTimeWindows (some "FY26 Q3,FY26 Q4")) sampleLists
      none (some "O'Hara") none true (some "cm_count")).map stripStr =
    (buildWhere "close_quarter" (canonPeriods (resolveTimeWindows (some "FY26 Q3,FY26 Q4")))
      (canonLists sampleLists) (canonScalar none) (canonScalar (some "O'Hara"))
      (canonScalar none) true (some "cm_count")).map stripStr :=
  sql_values_escaped_and_inert.2.2 "close_quarter" (some "FY26 Q3,FY26 Q4") sampleLists
    none (some "O'Hara") none true (some "cm_count") (by decide)

end DataAgent
